import Mathlib

/-!
Verification of the cross-catalog playlist matching and reconciliation core of
`spotify-youtube-playlist-sync`.

The JavaScript sources are shallowly embedded:

* strings are `List Char` (`Str`); JS numbers are `ℚ` except where the code
  calls the transcendental `Math.log10`, which is modelled over `ℝ`;
* `undefined`-able values are `Option`; JS truthiness of a numeric value `x`
  (`!x` is true for `undefined` and `0`) is `qTruthy`;
* the regular expressions of `src/util/text.js` are implemented directly as
  character-list scans that follow the JS regex semantics (global replace,
  lazy `.+?`, alternation order, greedy optional suffixes); character classes
  `\p{L}\p{N}` are modelled on the ASCII fragment (`Char.isAlphanum`);
* network collaborators (search, insert) are explicit functional parameters,
  and the ambient clock `Date.now()` is an explicit `now : ℚ` argument.

The client files of the repository contain, after their current
implementation, older historical variants of the same module appended one
after the other.  The embedding follows the first (current) implementation in
each file — the one the current entry point invokes.
-/

/-- Strings of the embedded program. -/
abbrev Str := List Char

/-- JS `\s` whitespace, restricted to the characters relevant here. -/
def isWs (c : Char) : Bool :=
  c = ' ' || c = '\t' || c = '\n' || c = '\r'

/-- JS truthiness of an optional number: `undefined` and `0` are falsy. -/
def qTruthy : Option ℚ → Bool
  | none => false
  | some x => !(x = 0)

/-- JS truthiness of an optional string: `undefined`/`null` and `""` are falsy. -/
def strTruthy : Option Str → Bool
  | none => false
  | some s => !(s = [])

/-- `hay.startsWith(needle)` on character lists. -/
def strStartsWith : List Char → List Char → Bool
  | _, [] => true
  | [], _ :: _ => false
  | c :: cs, p :: ps => c = p && strStartsWith cs ps

/-- JS `hay.includes(needle)` (substring containment) on character lists. -/
def strIncludes : List Char → List Char → Bool
  | [], needle => needle.isEmpty
  | c :: cs, needle => strStartsWith (c :: cs) needle || strIncludes cs needle

/-- `hay.endsWith(needle)` on character lists. -/
def strEndsWith (hay needle : Str) : Bool :=
  strStartsWith hay.reverse needle.reverse

/-- Duplicate removal keeping the first occurrence — the iteration/membership
behaviour of a JS `Set` built by insertion.  Only size and membership of such
sets are consumed by the sources. -/
def dedupFirstAux {α : Type} [DecidableEq α] : Nat → List α → List α
  | 0, l => l
  | _ + 1, [] => []
  | fuel + 1, x :: xs => x :: dedupFirstAux fuel (xs.filter (fun y => y ≠ x))

def dedupFirst {α : Type} [DecidableEq α] (l : List α) : List α :=
  dedupFirstAux l.length l

/-- `text.js` `norm`, step 1 of the regex pipeline: global replace of
`/\s*\(official.+?\)|\s*\[official.+?\]/` by a space.  `scanCloseAux` looks
for the first closing delimiter after at least one `.`-matched (non-newline)
character. -/
def scanCloseAux (close : Char) : List Char → Option (List Char)
  | [] => none
  | c :: cs => if c = close then some cs
    else if c = '\n' then none
    else scanCloseAux close cs

/-- One `.` character (non-newline), then scan to the closing delimiter. -/
def scanClose (close : Char) : List Char → Option (List Char)
  | [] => none
  | c :: cs => if c = '\n' then none else scanCloseAux close cs

/-- Try to match `\s*\(official.+?\)` or `\s*\[official.+?\]` at the head;
returns the remainder after the match. -/
def matchOfficialAt (l : List Char) : Option (List Char) :=
  let l1 := l.dropWhile isWs
  if strStartsWith l1 ('(' :: ('o' :: ('f' :: ('f' :: ('i' :: ('c' :: ('i' :: ('a' :: ['l'])))))))) then
    scanClose ')' (l1.drop 9)
  else if strStartsWith l1 ('[' :: ('o' :: ('f' :: ('f' :: ('i' :: ('c' :: ('i' :: ('a' :: ['l'])))))))) then
    scanClose ']' (l1.drop 9)
  else none

/-- Global left-to-right replacement driver for step 1.  Each successful match
consumes at least one character, so `fuel = l.length` never runs out. -/
def stripOfficialAux : Nat → List Char → List Char
  | 0, l => l
  | _ + 1, [] => []
  | fuel + 1, c :: cs =>
    match matchOfficialAt (c :: cs) with
    | some rest => ' ' :: stripOfficialAux fuel rest
    | none => c :: stripOfficialAux fuel cs

def stripOfficial (l : List Char) : List Char :=
  stripOfficialAux l.length l

/-- Alternatives of step 2 of `norm`, in JS alternation/greediness order:
`official video|official audio|lyrics?|mv|hd|4k|remaster(ed)?`. -/
def markerPatterns : List Str :=
  [String.toList "official video", String.toList "official audio",
   String.toList "lyrics", String.toList "lyric",
   String.toList "mv", String.toList "hd", String.toList "4k",
   String.toList "remastered", String.toList "remaster"]

def matchMarkerAt (l : List Char) : Option (List Char) :=
  (markerPatterns.find? (fun p => strStartsWith l p)).map (fun p => l.drop p.length)

def replaceMarkersAux : Nat → List Char → List Char
  | 0, l => l
  | _ + 1, [] => []
  | fuel + 1, c :: cs =>
    match matchMarkerAt (c :: cs) with
    | some rest => ' ' :: replaceMarkersAux fuel rest
    | none => c :: replaceMarkersAux fuel cs

def replaceMarkers (l : List Char) : List Char :=
  replaceMarkersAux l.length l

/-- Step 3: `[^\p{L}\p{N}\s]` → space (letter/digit classes modelled on the
ASCII fragment). -/
def stripPunct (l : List Char) : List Char :=
  l.map (fun c => if c.isAlphanum || isWs c then c else ' ')

/-- Step 4: `\s+` → single space (fuel-driven; each step consumes at least
one character). -/
def collapseWsAux : Nat → List Char → List Char
  | 0, l => l
  | _ + 1, [] => []
  | fuel + 1, c :: cs =>
    if isWs c then ' ' :: collapseWsAux fuel (cs.dropWhile isWs)
    else c :: collapseWsAux fuel cs

def collapseWs (l : List Char) : List Char :=
  collapseWsAux l.length l

/-- Step 5: `.trim()`. -/
def trimWs (l : List Char) : List Char :=
  ((l.dropWhile isWs).reverse.dropWhile isWs).reverse

/-- `text.js` `norm(s)`: lowercase, strip `(official …)` groups, strip marker
words, strip punctuation, collapse whitespace, trim. -/
def normText (s : Str) : Str :=
  trimWs (collapseWs (stripPunct (replaceMarkers (stripOfficial (s.map Char.toLower)))))

/-- `text.js` `STOPWORDS`. -/
def STOPWORDS : List Str :=
  [String.toList "the", String.toList "a", String.toList "an", String.toList "and",
   String.toList "of", String.toList "to", String.toList "in", String.toList "on",
   String.toList "for", String.toList "with", String.toList "by", String.toList "feat",
   String.toList "ft", String.toList "vs", String.toList "x", String.toList "remix",
   String.toList "edit"]

/-- `text.js` `tokens(s)`: `norm(s).split(' ')` filtered to non-empty tokens of
length ≥ 3 outside the stopword set. -/
def tokens (s : Str) : List Str :=
  ((normText s).splitOn ' ').filter
    (fun t => !(t = []) && decide (3 ≤ t.length) && !(STOPWORDS.contains t))

/-- `text.js` `jaccardTitle(a, b)` over exact rationals. -/
def jaccardTitle (a b : Str) : ℚ :=
  let A := dedupFirst (tokens a)
  let B := dedupFirst (tokens b)
  if A.length = 0 ∧ B.length = 0 then 1
  else
    let inter := (A.filter (fun t => B.contains t)).length
    let uni := A.length + B.length - inter
    if uni = 0 then 0 else (inter : ℚ) / (uni : ℚ)

/-- `text.js` `hasUsableTokens(...parts)`: the intelligibility guard.  True if
some token survives tokenization, or the normalized joined text still has at
least two letter/digit characters. -/
def hasUsableTokens (parts : List Str) : Bool :=
  let joined := trimWs (List.intercalate [' '] (parts.filter (fun p => !(p = []))))
  if joined = [] then false
  else if 0 < (tokens joined).length then true
  else decide (2 ≤ ((normText joined).filter (fun c => c.isAlphanum)).length)

theorem strIncludes_nil_needle (hay : Str) : strIncludes hay [] = true := by
  cases hay <;> simp [strIncludes, strStartsWith]

theorem strStartsWith_append {a n : Str} (b : Str)
    (h : strStartsWith a n = true) : strStartsWith (a ++ b) n = true := by
  induction n generalizing a with
  | nil => simp [strStartsWith]
  | cons p ps ih =>
    cases a with
    | nil => simp [strStartsWith] at h
    | cons c cs =>
      simp only [strStartsWith, Bool.and_eq_true] at h
      simpa [strStartsWith, h.1] using ih h.2

theorem strIncludes_append_left {a n : Str} (b : Str)
    (h : strIncludes a n = true) : strIncludes (a ++ b) n = true := by
  induction a with
  | nil =>
    simp only [strIncludes, List.isEmpty_iff] at h
    subst h
    simpa using strIncludes_nil_needle b
  | cons c cs ih =>
    simp only [strIncludes, Bool.or_eq_true] at h
    rcases h with h | h
    · simp only [List.cons_append, strIncludes, Bool.or_eq_true]
      exact Or.inl (strStartsWith_append b h)
    · simp only [List.cons_append, strIncludes, Bool.or_eq_true]
      exact Or.inr (ih h)

/-! ## Data model

`CanonicalItem` snapshots as produced by `canonicalFromPlaylistItem`
(`spotify.js`) and `getYouTubePlaylistItems` / `toCandidate` (`youtube.js`).
Durations and timestamps are milliseconds; timestamps model the
`new Date(iso).getTime()` value of the corresponding ISO strings. -/

structure SpItem where
  id : String
  title : Str
  artists : List Str
  durationMs : Option ℚ
  addedAt : Option ℚ
deriving DecidableEq

structure YtVideo where
  id : String
  title : Str
  description : Str
  channelTitle : Str
  categoryId : Str
  durationMs : Option ℚ
  viewCount : ℚ
  publishedAt : Option ℚ
  addedAt : Option ℚ
deriving DecidableEq

/-! ## `src/clients/youtube.js`: Spotify → YouTube matching -/

/-- `youtube.js` `hasAllTitleTokens`: full coverage of the source title's
token set by the candidate title's token set. -/
def hasAllTitleTokens (spotifyTitle ytTitle : Str) : Bool :=
  let need := dedupFirst (tokens spotifyTitle)
  if need.length = 0 then true
  else
    let hv := dedupFirst (tokens ytTitle)
    need.all (fun t => hv.contains t)

/-- `youtube.js` `isShortVideo`. -/
def isShortVideo (trackMs candMs : Option ℚ) : Bool :=
  qTruthy trackMs && decide (60000 < trackMs.getD 0)
    && qTruthy candMs && decide (candMs.getD 0 < 60000)

def VARIANT_TOKENS : List Str :=
  [String.toList "live", String.toList "acoustic", String.toList "remix",
   String.toList "remaster", String.toList "clean", String.toList "explicit",
   String.toList "radio edit"]

def DISALLOWED_TOKENS : List Str :=
  [String.toList "cover", String.toList "karaoke", String.toList "sped up",
   String.toList "speed up", String.toList "nightcore", String.toList "slowed",
   String.toList "8d", String.toList "8d audio", String.toList "loop",
   String.toList "extended", String.toList "reaction", String.toList "compilation",
   String.toList "mix", String.toList "full album", String.toList "tribute",
   String.toList "fanmade", String.toList "edit", String.toList "reverb",
   String.toList "bass boosted"]

/-- `youtube.js` `violatesVersionRules`: a variant marker, disallowed content
marker, or "lyric" present (as a substring) in the candidate's normalized
title+description but absent from the normalized source title. -/
def violatesVersionRules (spotifyTitle ytTitle ytDesc : Str) : Bool :=
  let st := normText spotifyTitle
  let yt := normText ytTitle ++ (' ' :: normText ytDesc)
  let allowed := VARIANT_TOKENS.filter (fun v => strIncludes st v)
  (VARIANT_TOKENS.any (fun v => strIncludes yt v && !(allowed.contains v)))
  || (DISALLOWED_TOKENS.any (fun d => strIncludes yt d && !(strIncludes st d)))
  || (strIncludes yt (String.toList "lyric") && !(strIncludes st (String.toList "lyric")))

/-- `youtube.js` `artistAlignment`. -/
def artistAlignment (primaryArtist ytTitle ytChannel : Str) : Bool :=
  let a := normText primaryArtist
  let t := normText ytTitle
  let c := normText ytChannel
  strIncludes t a || c = a || c = a ++ (' ' :: String.toList "- topic")
    || strIncludes c (String.toList "vevo") || strIncludes c a

/-- `youtube.js` `trustScore`. -/
def trustScore (primaryArtist ytChannel : Str) : ℚ :=
  let a := normText primaryArtist
  let c := normText ytChannel
  if c = a then 3.0
  else if c = a ++ (' ' :: String.toList "- topic") then 2.6
  else if strIncludes c (String.toList "vevo") then 2.6
  else if strIncludes c a then 2.2
  else 1.0

/-- `youtube.js` `contentTypeScore`. -/
def contentTypeScore (ytTitle ytChannel : Str) : ℚ :=
  let t := normText ytTitle
  let c := normText ytChannel
  (if strIncludes t (String.toList "official audio") then 0.4 else 0)
    + (if strEndsWith c (String.toList " - topic") then 0.4 else 0)
    + (if strIncludes t (String.toList "official video") then 0.2 else 0)

/-- `youtube.js` `popularityScore`; `Math.log10` is modelled over the reals,
and the ambient `Date.now()` is the explicit argument `now`. -/
noncomputable def popularityScore (views : ℚ) (publishedAt : Option ℚ) (now : ℚ) : ℝ :=
  let v : ℝ := Real.logb 10 ((views : ℝ) + 1)
  let s := v / 8
  match publishedAt with
  | none => s
  | some p => if (now - p) / 86400000 < 30 then s * 0.5 else s

/-- `youtube.js` `durationCloseness` (linear falloff to 0 at the slack
boundary; the source's `(slackSec || 7)` fallback is the zero test). -/
def durationCloseness (trackMs candMs : Option ℚ) (slackSec : ℚ) : ℚ :=
  if !(qTruthy trackMs) || !(qTruthy candMs) then 0
  else
    let slack := (if slackSec = 0 then (7 : ℚ) else slackSec) * 1000
    let delta := |trackMs.getD 0 - candMs.getD 0|
    if slack < delta then 0 else 1 - delta / slack

/-- `youtube.js` `categoryBonus` (category "10" is YouTube's Music). -/
def categoryBonus (categoryId : Str) : ℚ :=
  if categoryId = String.toList "10" then 0.3 else 0.0

/-- `youtube.js` `passesHardFilters`: the source's sequence of early-`false`
returns, as a conjunction. -/
def passesHardFilters (spItem : SpItem) (cand : YtVideo) (slackSec : ℚ) : Bool :=
  !(durationCloseness spItem.durationMs cand.durationMs slackSec = 0)
  && !(isShortVideo spItem.durationMs cand.durationMs)
  && !(violatesVersionRules spItem.title cand.title cand.description)
  && artistAlignment (spItem.artists.headD []) cand.title cand.channelTitle
  && hasAllTitleTokens spItem.title cand.title

/-- `youtube.js` `scoreCandidate`. -/
noncomputable def scoreCandidate (spItem : SpItem) (cand : YtVideo) (slackSec now : ℚ) : ℝ :=
  let primary := spItem.artists.headD []
  let sTrust := trustScore primary cand.channelTitle
  let sTitle := jaccardTitle spItem.title cand.title
  let sArtist : ℚ := if artistAlignment primary cand.title cand.channelTitle then 1 else 0
  let sDur := durationCloseness spItem.durationMs cand.durationMs slackSec
  let sType := contentTypeScore cand.title cand.channelTitle
  let sPop := popularityScore cand.viewCount cand.publishedAt now
  let sCat := categoryBonus cand.categoryId
  (sTrust : ℝ) * 2.0 + (sTitle : ℝ) * 1.6 + (sArtist : ℝ) * 1.0 + (sDur : ℝ) * 1.4
    + (sType : ℝ) * 0.6 + sPop * 0.4 + (sCat : ℝ)

/-- The guarded `best`/`bestScore` selection loop shared by the matchers and
the soft-duplicate detectors: entries failing the guard are `continue`d over
(`ok`), the rest replace the accumulator on strictly greater score.  The
source's `best = null, bestScore = -Infinity` start is the accumulator
`none`: the first surviving element always beats `-Infinity`. -/
def guardedMax {α β : Type} [LinearOrder β] (ok : α → Bool) (sc : α → β)
    (acc : Option (α × β)) (x : α) : Option (α × β) :=
  if ok x then
    match acc with
    | none => some (x, sc x)
    | some (b, bs) => if bs < sc x then some (x, sc x) else some (b, bs)
  else acc

/-- The unguarded selection loop of the two `findBest…` matchers. -/
def pickBest {α β : Type} [LinearOrder β] (sc : α → β) (l : List α) : Option (α × β) :=
  l.foldl (guardedMax (fun _ => true) sc) none

/-- The search query `\`${primaryArtist} ${spItem.title}\`.trim()` of
`findBestYouTubeForSpotifyTrack`. -/
def ytSearchQuery (spItem : SpItem) : Str :=
  trimWs (spItem.artists.headD [] ++ (' ' :: spItem.title))

structure YtMatchResult where
  best : Option YtVideo
  reason : String
  inspected : ℕ
  escalated : Bool
  score : Option ℝ

/-- `youtube.js` `findBestYouTubeForSpotifyTrack`.  The search + details
collaborators are collapsed into `searchFn`, which returns the candidate
records (`all` in the source) for a query; an empty return is the source's
`!order.length` case.  The source's single mutable `pool`/`escalated` pair is
written as the equivalent nested conditional. -/
noncomputable def findBestYouTubeForSpotifyTrack (spItem : SpItem)
    (searchFn : Str → List YtVideo) (slackSec now : ℚ) : YtMatchResult :=
  let all := searchFn (ytSearchQuery spItem)
  if all = [] then ⟨none, "no_search_results", 0, false, none⟩
  else
    let pool5 := (all.take 5).filter (fun c => passesHardFilters spItem c slackSec)
    if pool5 = [] then
      let pool10 := (all.take 10).filter (fun c => passesHardFilters spItem c slackSec)
      if pool10 = [] then ⟨none, "no_candidate_passed_filters", min 10 all.length, true, none⟩
      else
        match pickBest (fun c => scoreCandidate spItem c slackSec now) pool10 with
        | some (b, s) => ⟨some b, "ok", min 10 all.length, true, some s⟩
        | none => ⟨none, "no_best", min 10 all.length, true, none⟩
    else
      match pickBest (fun c => scoreCandidate spItem c slackSec now) pool5 with
      | some (b, s) => ⟨some b, "ok", min 5 all.length, false, some s⟩
      | none => ⟨none, "no_best", min 5 all.length, false, none⟩

/-- `relaxedDurationOk`, identical in `youtube.js` and `spotify.js`:
`max(12s, 4% of track)` tolerance. -/
def relaxedDurationOk (trackMs candMs : Option ℚ) : Bool :=
  if !(qTruthy trackMs) || !(qTruthy candMs) then false
  else
    let slackMs : ℤ := max 12000 (Int.floor (0.04 * trackMs.getD 0))
    decide (|trackMs.getD 0 - candMs.getD 0| ≤ (slackMs : ℚ))

/-- `youtube.js` `softArtistAlign` (looser than the hard filter). -/
def softArtistAlign (primaryArtist ytTitle ytChannel : Str) : Bool :=
  let a := normText primaryArtist
  strIncludes (normText ytTitle) a || strIncludes (normText ytChannel) a

/-- `youtube.js` `findSoftDupeInPlaylist`: relaxed duration + loose artist +
moderate title overlap against the materialized destination list; among hits,
the most trusted (by `trustScore * 2 + titleSim`) wins.  Callers pass the
default `jaccardMin = 0.45`. -/
def softDupeYtOk (spItem : SpItem) (jaccardMin : ℚ) (v : YtVideo) : Bool :=
  relaxedDurationOk spItem.durationMs v.durationMs
    && softArtistAlign (spItem.artists.headD []) v.title v.channelTitle
    && !(jaccardTitle spItem.title v.title < jaccardMin)

def softDupeYtScore (spItem : SpItem) (v : YtVideo) : ℚ :=
  trustScore (spItem.artists.headD []) v.channelTitle * 2 + jaccardTitle spItem.title v.title

def findSoftDupeInPlaylist (spItem : SpItem) (ytPlaylistItems : List YtVideo)
    (jaccardMin : ℚ) : Option YtVideo :=
  (ytPlaylistItems.foldl
    (guardedMax (softDupeYtOk spItem jaccardMin) (softDupeYtScore spItem)) none).map
    (fun p => p.1)

/-! ## `src/clients/spotify.js`: YouTube → Spotify matching (current variant) -/

/-- `spotify.js` `durationClose` (boolean slack gate). -/
def durationClose (trackMs candMs : Option ℚ) (slackSec : ℚ) : Bool :=
  if !(qTruthy trackMs) || !(qTruthy candMs) then false
  else decide (|trackMs.getD 0 - candMs.getD 0| ≤ slackSec * 1000)

/-- JS `\w` word characters, for `\b` boundaries. -/
def isWordChar (c : Char) : Bool := c.isAlphanum || c = '_'

def strStartsWithCI (l p : List Char) : Bool :=
  strStartsWith (l.map Char.toLower) (p.map Char.toLower)

/-- Whether the word-boundary pattern `\bvevo\b/i` matches at the head of `l`,
with `prev` the character just before `l` (none at the start of the string). -/
def vevoAtHead (prev : Option Char) (l : List Char) : Bool :=
  (match prev with | none => true | some p => !isWordChar p)
  && strStartsWithCI l (String.toList "vevo")
  && (match l.drop 4 with | [] => true | c :: _ => !isWordChar c)

/-- `/\bvevo\b/i.test(t)`. -/
def testVevoWord (t : Str) : Bool :=
  let rec go (prev : Option Char) : List Char → Bool
    | [] => false
    | c :: cs => vevoAtHead prev (c :: cs) || go (some c) cs
  go none t

/-- `t.replace(/\bvevo\b/ig, '')`: global removal of word-bounded `vevo`.
Matching is against the original string, so the boundary character after a
removal is the last character of the removed match (a word character). -/
def removeVevoAux : Nat → Option Char → List Char → List Char
  | 0, _, l => l
  | _ + 1, _, [] => []
  | fuel + 1, prev, c :: cs =>
    if vevoAtHead prev (c :: cs) then removeVevoAux fuel (some 'o') ((c :: cs).drop 4)
    else c :: removeVevoAux fuel (some c) cs

def removeVevoWords (t : Str) : Str :=
  removeVevoAux t.length none t

/-- The anchored match `/^(.*)\s+-\s+topic$/i` against a channel title,
returning the untrimmed capture group.  Implemented on the reversed string:
`topic`, then `\s+`, then `-`, then `\s+`, then the (reversed) capture.  The
greedy `(.*)` versus `\s+` split is immaterial because the caller trims the
capture. -/
def matchTopicSuffix (t : Str) : Option Str :=
  let r := t.reverse
  if strStartsWithCI r (String.toList "cipot") then
    match r.drop 5 with
    | c1 :: rest1 =>
      if isWs c1 then
        match rest1.dropWhile isWs with
        | '-' :: rest2 =>
          match rest2 with
          | c3 :: rest3 => if isWs c3 then some (rest3.dropWhile isWs).reverse else none
          | [] => none
        | _ => none
      else none
    | [] => none
  else none

/-- `spotify.js` `extractArtistFromChannel`: `"Artist - Topic"` or a channel
containing the word `VEVO` (with `vevo` removed); otherwise `null`. -/
def extractArtistFromChannel (channelTitle : Str) : Option Str :=
  match matchTopicSuffix channelTitle with
  | some pre => some (trimWs pre)
  | none =>
    if testVevoWord channelTitle then some (trimWs (removeVevoWords channelTitle))
    else none

def artistMarkerWords : List Str :=
  [String.toList "feat", String.toList "ft", String.toList "with",
   String.toList "con", String.toList "x", String.toList "y"]

/-- A whole space-delimited segment of `x` equals `w`.  On `norm` images
(lowercase, single-space separated, no leading/trailing space) this is exactly
the regex `(?:\s|^)w(?:\s|$)` used by the source. -/
def hasWordSeg (x w : Str) : Bool := (x.splitOn ' ').contains w

/-- `spotify.js` `hasArtistMarkers`.  (`&` and `,` are checked on the `norm`
image, which has already stripped punctuation — kept as in the source.) -/
def hasArtistMarkers (s : Str) : Bool :=
  let x := normText s
  (x.splitOn ' ').any (fun seg => artistMarkerWords.contains seg)
    || strIncludes x (String.toList "&") || strIncludes x (String.toList ",")

def isDashChar (c : Char) : Bool := c = '–' || c = '—' || c = '-'

/-- `raw.split(/[–—-]{1,3}/)` combined with `raw.slice(parts[0].length + 1)`:
the prefix before the first dash character, and the remainder after exactly
one dash character (extra dashes of a longer separator stay in the right
part, as in the source). -/
def breakAtFirstDash : Str → Option (Str × Str)
  | [] => none
  | c :: cs =>
    if isDashChar c then some ([], cs)
    else
      match breakAtFirstDash cs with
      | some (pre, post) => some (c :: pre, post)
      | none => none

structure SplitResult where
  titleCore : Str
  artistSide : Option Str
  orientation : String
deriving DecidableEq

/-- `spotify.js` `smartSplitArtistTitle`: orientation resolution for
dash-delimited titles (channel overlap, then artist-list markers, then the
fewer-tokens heuristic, then artist-first default). -/
def smartSplitArtistTitle (ytTitle channelTitle : Str) : SplitResult :=
  match breakAtFirstDash ytTitle with
  | none => ⟨trimWs ytTitle, none, "none"⟩
  | some (pre, post) =>
    let left := trimWs pre
    let right := trimWs post
    let channelArtist := extractArtistFromChannel channelTitle
    let chanTokens : Option (List Str) :=
      match channelArtist with
      | some a => if a = [] then none else some (dedupFirst (tokens a))
      | none => none
    let leftTokens := dedupFirst (tokens left)
    let rightTokens := dedupFirst (tokens right)
    let overlapLeft :=
      match chanTokens with
      | some ct => ct.any (fun t => leftTokens.contains t)
      | none => false
    let overlapRight :=
      match chanTokens with
      | some ct => ct.any (fun t => rightTokens.contains t)
      | none => false
    if overlapLeft && !overlapRight then ⟨right, some left, "left-artist"⟩
    else if overlapRight && !overlapLeft then ⟨left, some right, "right-artist"⟩
    else
      let leftLooksArtist := hasArtistMarkers left
      let rightLooksArtist := hasArtistMarkers right
      if leftLooksArtist && !rightLooksArtist then ⟨right, some left, "left-artist"⟩
      else if rightLooksArtist && !leftLooksArtist then ⟨left, some right, "right-artist"⟩
      else if leftTokens.length < rightTokens.length then ⟨right, some left, "left-artist"⟩
      else if rightTokens.length < leftTokens.length then ⟨left, some right, "right-artist"⟩
      else ⟨right, some left, "left-artist"⟩

/-- `/^various artists$/i`. -/
def isVariousArtists (s : Str) : Bool :=
  s.map Char.toLower = String.toList "various artists"

structure ArtistGuess where
  artistGuess : Option Str
  trusted : Bool
deriving DecidableEq

/-- The fall-through of `deriveArtistGuess` when no usable channel pattern
exists: a title-derived side is an untrusted guess. -/
def deriveArtistGuessFallback (ytTitle channelTitle : Str) : ArtistGuess :=
  let split := smartSplitArtistTitle ytTitle channelTitle
  match split.artistSide with
  | some a => if a = [] then ⟨none, false⟩ else ⟨some a, false⟩
  | none => ⟨none, false⟩

/-- `spotify.js` `deriveArtistGuess` (current variant): trusted only when the
guess comes from the channel pattern and is not `Various Artists`. -/
def deriveArtistGuess (ytTitle channelTitle : Str) : ArtistGuess :=
  match extractArtistFromChannel channelTitle with
  | some ch =>
    if !(ch = []) && !(isVariousArtists ch) then ⟨some ch, true⟩
    else deriveArtistGuessFallback ytTitle channelTitle
  | none => deriveArtistGuessFallback ytTitle channelTitle

structure VersionFlags where
  hasLive : Bool
  hasRemix : Bool
  hasAcoustic : Bool
  hasLyric : Bool
  hasRemaster : Bool
deriving DecidableEq

/-- `spotify.js` `versionTokens`: word-bounded variant flags on the `norm`
image.  A `norm` image consists of letter/digit runs separated by single
spaces, so `\bw\b` holds exactly when `w` is a whole segment. -/
def versionTokens (s : Str) : VersionFlags :=
  let x := normText s
  ⟨hasWordSeg x (String.toList "live"),
   hasWordSeg x (String.toList "remix"),
   hasWordSeg x (String.toList "acoustic"),
   hasWordSeg x (String.toList "lyric") || hasWordSeg x (String.toList "lyrics"),
   hasWordSeg x (String.toList "remaster") || hasWordSeg x (String.toList "remastered")⟩

/-- `spotify.js` `titleCoverageOk`. -/
def titleCoverageOk (ytCoreTitle spName : Str) : Bool :=
  let need := dedupFirst (tokens ytCoreTitle)
  let hv := dedupFirst (tokens spName)
  need.all (fun t => hv.contains t)

/-- `spotify.js` `artistTokenSet` (falls back to the whole normalized name for
very short names such as "U2"). -/
def artistTokenSet (name : Str) : List Str :=
  let t := tokens name
  if t = [] then [normText name] else dedupFirst t

/-- `spotify.js` `artistAligned`: word-level token overlap between the guess
and any of the track's artist names; an absent (or empty) guess never
blocks. -/
def artistAligned (artistGuess : Option Str) (spArtists : List Str) : Bool :=
  match artistGuess with
  | none => true
  | some g =>
    if g = [] then true
    else
      let guessSet := artistTokenSet g
      spArtists.any (fun a =>
        let aSet := artistTokenSet a
        guessSet.any (fun tok => aSet.contains tok))

/-- `spotify.js` `isMusicVideoName`: `\bmusic\s*video\b`, `\bofficial\s*video\b`
or `\bvideo\s+edit\b` on the `norm` image (adjacent segments; for `\s*` also a
single fused segment). -/
def hasAdjPair : List Str → Str → Str → Bool
  | a :: b :: rest, w1, w2 => (a = w1 && b = w2) || hasAdjPair (b :: rest) w1 w2
  | _, _, _ => false

def isMusicVideoName (name : Str) : Bool :=
  let segs := (normText name).splitOn ' '
  (hasAdjPair segs (String.toList "music") (String.toList "video")
      || segs.contains (String.toList "musicvideo"))
    || (hasAdjPair segs (String.toList "official") (String.toList "video")
      || segs.contains (String.toList "officialvideo"))
    || hasAdjPair segs (String.toList "video") (String.toList "edit")

/-- `spotify.js` `isExactTitleMatch`: order-insensitive token-set equality of
non-empty token sets. -/
def isExactTitleMatch (coreTitle spName : Str) : Bool :=
  let A := dedupFirst (tokens coreTitle)
  let B := dedupFirst (tokens spName)
  if A.length = 0 || B.length = 0 then false
  else if !(A.length = B.length) then false
  else A.all (fun t => B.contains t)

/-- `spotify.js` `findSoftDupeInSpotify` (current variant; the `verbose`/`log`
parameters only emit logging and are omitted). -/
def softDupeSpArtistOk (ytItem : YtVideo) (it : SpItem) : Bool :=
  let g := deriveArtistGuess ytItem.title ytItem.channelTitle
  if g.trusted then
    (if isMusicVideoName it.title then true else artistAligned g.artistGuess it.artists)
  else true

def softDupeSpOk (ytItem : YtVideo) (it : SpItem) : Bool :=
  let split := smartSplitArtistTitle ytItem.title ytItem.channelTitle
  let ytCore := if split.titleCore = [] then ytItem.title else split.titleCore
  relaxedDurationOk it.durationMs ytItem.durationMs
    && softDupeSpArtistOk ytItem it
    && !(jaccardTitle ytCore it.title < 0.45)

/-- The hit score `(artistOK ? 1 : 0) + sim + (mvTitle ? 0.05 : 0)`; at its
use site `artistOK` has already passed the guard, so the contribution is 1. -/
def softDupeSpScore (ytItem : YtVideo) (it : SpItem) : ℚ :=
  let split := smartSplitArtistTitle ytItem.title ytItem.channelTitle
  let ytCore := if split.titleCore = [] then ytItem.title else split.titleCore
  (if softDupeSpArtistOk ytItem it then (1 : ℚ) else 0) + jaccardTitle ytCore it.title
    + (if isMusicVideoName it.title then 0.05 else 0)

def findSoftDupeInSpotify (ytItem : YtVideo) (spPlaylistItems : List SpItem) :
    Option SpItem :=
  (spPlaylistItems.foldl
    (guardedMax (softDupeSpOk ytItem) (softDupeSpScore ytItem)) none).map
    (fun p => p.1)

/-- A Spotify search hit after `candToObj` (the `popularity || 0` guard makes
popularity total). -/
structure SpTrack where
  id : String
  name : Str
  artists : List Str
  duration_ms : Option ℚ
  popularity : ℚ
  explicitFlag : Bool
deriving DecidableEq

/-- The query list of `findBestSpotifyForYouTubeVideo` (current variant):
trusted artist+core, untrusted side+core, always the bare core. -/
def buildSpQueries (ytItem : YtVideo) : List Str :=
  let split := smartSplitArtistTitle ytItem.title ytItem.channelTitle
  let titleCore := if split.titleCore = [] then ytItem.title else split.titleCore
  let g := deriveArtistGuess ytItem.title ytItem.channelTitle
  (if g.trusted && strTruthy g.artistGuess then [g.artistGuess.getD [] ++ (' ' :: titleCore)]
   else [])
    ++ (if !g.trusted && strTruthy split.artistSide then
        [split.artistSide.getD [] ++ (' ' :: titleCore)]
      else [])
    ++ [titleCore]

/-- The aggregation loop over queries: results are merged in first-seen order,
de-duplicated by candidate id (`seenIds`). -/
def mergeCandidates (queries : List Str) (searchFn : Str → List SpTrack) : List SpTrack :=
  (queries.foldl (fun acc q =>
    (searchFn q).foldl (fun (acc2 : List SpTrack × List String) t =>
      if acc2.2.contains t.id then acc2 else (acc2.1 ++ [t], acc2.2 ++ [t.id])) acc)
    (([], []) : List SpTrack × List String)).1

/-- The derived core title `split.titleCore || ytItem.title || ''`. -/
def spTitleCore (ytItem : YtVideo) : Str :=
  let split := smartSplitArtistTitle ytItem.title ytItem.channelTitle
  if split.titleCore = [] then ytItem.title else split.titleCore

/-- The version-alignment requirement of the YT→SP `hardFilter`: every flag of
the source video must be matched by the candidate. -/
def spVersionMismatch (ytItem : YtVideo) (t : SpTrack) : Bool :=
  let ytTokens := versionTokens ytItem.title
  let sTokens := versionTokens t.name
  (ytTokens.hasLive && !sTokens.hasLive)
    || (ytTokens.hasRemix && !sTokens.hasRemix)
    || (ytTokens.hasAcoustic && !sTokens.hasAcoustic)
    || (ytTokens.hasLyric && !sTokens.hasLyric)
    || (ytTokens.hasRemaster && !sTokens.hasRemaster)

/-- The artist clause of the YT→SP `hardFilter`: enforced only for a trusted
guess on a non-music-video candidate. -/
def spArtistGate (ytItem : YtVideo) (t : SpTrack) : Bool :=
  let g := deriveArtistGuess ytItem.title ytItem.channelTitle
  g.trusted && !(isMusicVideoName t.name) && !(artistAligned g.artistGuess t.artists)

/-- `spotify.js` `hardFilter` (current variant), as a conjunction of the
source's early-`false` returns. -/
def spHardFilter (ytItem : YtVideo) (slackSec : ℚ) (t : SpTrack) : Bool :=
  durationClose ytItem.durationMs t.duration_ms slackSec
    && !(spVersionMismatch ytItem t)
    && !(spArtistGate ytItem t)
    && titleCoverageOk (spTitleCore ytItem) t.name

/-- `spotify.js` `score` (current variant). -/
def spScore (ytItem : YtVideo) (slackSec : ℚ) (t : SpTrack) : ℚ :=
  let mv := isMusicVideoName t.name
  let g := deriveArtistGuess ytItem.title ytItem.channelTitle
  let sTitle := jaccardTitle (spTitleCore ytItem) t.name
  let sDur := 1 - |t.duration_ms.getD 0 - ytItem.durationMs.getD 0| / (slackSec * 1000)
  let sArtist : ℚ := if g.trusted && !mv && artistAligned g.artistGuess t.artists then 1 else 0
  let sPop := t.popularity / 100
  let sMV : ℚ := if mv then 0.3 else 0.0
  sTitle * 1.6 + sDur * 1.6 + sArtist * 1.0 + sPop * 0.6 + sMV

/-- The exact-non-MV tie-break: duration closeness plus `popularity / 200`. -/
def spExactTie (ytItem : YtVideo) (slackSec : ℚ) (t : SpTrack) : ℚ :=
  (1 - |t.duration_ms.getD 0 - ytItem.durationMs.getD 0| / (slackSec * 1000))
    + t.popularity / 200

structure SpMatchResult where
  best : Option SpTrack
  reason : String
  inspected : ℕ
  escalated : Bool
  score : Option ℚ
deriving DecidableEq

/-- Selection over a filter-passing pool: the exact-title non-music-video
override chosen outright (tie-broken by `spExactTie`), otherwise the weighted
score.  The source sorts descending (stably) and takes the head, which is the
first score-maximal element — exactly `pickBest`. -/
def spSelect (ytItem : YtVideo) (slackSec : ℚ) (pool : List SpTrack) (inspected : ℕ)
    (escalated : Bool) : SpMatchResult :=
  let exactNonMV := pool.filter (fun t =>
    isExactTitleMatch (spTitleCore ytItem) t.name && !(isMusicVideoName t.name))
  if !(exactNonMV = []) then
    match pickBest (spExactTie ytItem slackSec) exactNonMV with
    | some (chosen, bestTie) => ⟨some chosen, "ok", inspected, escalated, some bestTie⟩
    | none => ⟨none, "ok", inspected, escalated, none⟩
  else
    match pickBest (spScore ytItem slackSec) pool with
    | some (b, s) => ⟨some b, "ok", inspected, escalated, some s⟩
    | none => ⟨none, "no_best", inspected, escalated, none⟩

/-- `spotify.js` `findBestSpotifyForYouTubeVideo` (current variant).  The
search collaborator is `searchFn` (per-query results, the source's
`limit: 10` being the collaborator's obligation); the source's mutable
`pool`/`escalated` pair is the equivalent nested conditional. -/
def findBestSpotifyForYouTubeVideo (ytItem : YtVideo) (searchFn : Str → List SpTrack)
    (slackSec : ℚ) : SpMatchResult :=
  let all := mergeCandidates (buildSpQueries ytItem) searchFn
  if all = [] then ⟨none, "no_spotify_results", 0, false, none⟩
  else
    let pool5 := (all.take 5).filter (spHardFilter ytItem slackSec)
    if pool5 = [] then
      let pool10 := (all.take 10).filter (spHardFilter ytItem slackSec)
      if pool10 = [] then ⟨none, "no_candidate_passed_filters", min 10 all.length, true, none⟩
      else spSelect ytItem slackSec pool10 (min 10 all.length) true
    else spSelect ytItem slackSec pool5 (min 5 all.length) false

/-! ## `src/index.js`: reconciliation orchestrator

Each configured playlist pair is modelled by an environment carrying the
fetched catalog snapshots, the persisted cache, the search and insert
collaborators (`insertOk id = false` models a thrown/caught insert failure),
and the ambient clock.  `persisted = some c` means `saveCache` was called
with `c`; `none` means the cache file was never written. -/

def DEFAULT_DURATION_SLACK_SEC : ℚ := 7
def RECENT_SPOTIFY_LIMIT : ℕ := 10
def RECENT_YOUTUBE_LIMIT : ℕ := 10

/-- `index.js` `isAfter`. -/
def isAfter (a b : Option ℚ) : Bool :=
  match a with
  | none => false
  | some x =>
    match b with
    | none => true
    | some y => decide (y < x)

/-- The sort key `a.addedAt ? new Date(a.addedAt).getTime() : 0`. -/
def addedAtKey (x : Option ℚ) : ℚ :=
  match x with
  | none => 0
  | some t => t

/-- `index.js` `sortByAddedAtDesc` uses the stable JS `Array.prototype.sort`
with comparator `tb - ta`; modelled as a stable insertion sort, descending by
key. -/
def insertByKeyDesc {α : Type} (key : α → ℚ) (x : α) : List α → List α
  | [] => [x]
  | y :: ys => if key y < key x then x :: y :: ys else y :: insertByKeyDesc key x ys

def sortByKeyDesc {α : Type} (key : α → ℚ) (l : List α) : List α :=
  l.foldr (insertByKeyDesc key) []

def sortByAddedAtDesc (items : List SpItem) : List SpItem :=
  sortByKeyDesc (fun a => addedAtKey a.addedAt) items

def sortYtByAddedAtDesc (items : List YtVideo) : List YtVideo :=
  sortByKeyDesc (fun a => addedAtKey a.addedAt) items

/-- The persisted `SyncCache` (`util/cache.js`): `{ lastSync, seenTrackIds,
map }`, with `map` as an insertion-ordered keyed document. -/
structure Cache where
  lastSync : Option ℚ
  seenTrackIds : List String
  map : List (String × String)
deriving DecidableEq

def alookup (m : List (String × String)) (k : String) : Option String :=
  (m.find? (fun p => p.1 = k)).map (fun p => p.2)

/-- JS keyed-object assignment `m[k] = v`: update in place, else append. -/
def aupsert (m : List (String × String)) (k v : String) : List (String × String) :=
  if m.any (fun p => p.1 = k) then m.map (fun p => if p.1 = k then (k, v) else p)
  else m ++ [(k, v)]

structure Sp2YtEnv where
  spItemsAll : List SpItem
  ytItems : List YtVideo
  cache : Cache
  searchFn : Str → List YtVideo
  insertOk : String → Bool
  now : ℚ

inductive Sp2YtPlanEntry
  | add (s : SpItem) (videoId : String) (inspected : ℕ) (escalated : Bool)
  | mapOnly (s : SpItem) (videoId : String) (reason : Option String)
      (inspected : Option ℕ) (escalated : Option Bool)
  | skip (s : SpItem) (reason : String) (inspected : ℕ) (escalated : Bool)
deriving DecidableEq

def Sp2YtPlanEntry.item : Sp2YtPlanEntry → SpItem
  | .add s _ _ _ => s
  | .mapOnly s _ _ _ _ => s
  | .skip s _ _ _ => s

def Sp2YtPlanEntry.isAdd : Sp2YtPlanEntry → Bool
  | .add _ _ _ _ => true
  | _ => false

def Sp2YtPlanEntry.isMapOnly : Sp2YtPlanEntry → Bool
  | .mapOnly _ _ _ _ _ => true
  | _ => false

/-- Candidate admission within the recency window (`index.js` `runSp2Yt`):
first-run-and-unmapped, added since last sync, never seen, or mapped to a
video no longer present. -/
def isSp2YtCandidate (cache : Cache) (seen ytVideoSet : List String) (it : SpItem) : Bool :=
  let mapped := alookup cache.map it.id
  let addedRecently := isAfter it.addedAt cache.lastSync
  let unseen := !(seen.contains it.id)
  let mappedButMissing := mapped.isSome && !(ytVideoSet.contains (mapped.getD ""))
  let firstRun := cache.lastSync.isNone
  (firstRun && (mapped.isNone || mappedButMissing)) || addedRecently || unseen
    || mappedButMissing

/-- One iteration of the SP→YT plan-building loop: `none` models `continue`
for an already-valid mapping; otherwise soft-dupe map-only, else matcher
skip / map-only / add. -/
noncomputable def planEntrySp2Yt (cache : Cache) (ytVideoSet : List String)
    (ytItems : List YtVideo) (searchFn : Str → List YtVideo) (slack now : ℚ)
    (s : SpItem) : Option Sp2YtPlanEntry :=
  let mapped := alookup cache.map s.id
  if mapped.isSome && ytVideoSet.contains (mapped.getD "") then none
  else
    match findSoftDupeInPlaylist s ytItems 0.45 with
    | some softDupe => some (.mapOnly s softDupe.id (some "soft-dup-in-playlist") none none)
    | none =>
      let r := findBestYouTubeForSpotifyTrack s searchFn slack now
      match r.best with
      | none => some (.skip s (if r.reason = "" then "no_match" else r.reason)
          r.inspected r.escalated)
      | some b =>
        if ytVideoSet.contains b.id then
          some (.mapOnly s b.id none (some r.inspected) (some r.escalated))
        else some (.add s b.id r.inspected r.escalated)

structure Sp2YtOutcome where
  plan : List Sp2YtPlanEntry
  insertCalls : List Sp2YtPlanEntry
  addedCount : ℕ
  persisted : Option Cache

/-- One iteration of the SP→YT apply loop over the reversed `add` entries: on
a successful insert the mapping is recorded and the counter bumped; a failure
is caught and changes nothing. -/
def sp2YtApplyStep (insertOk : String → Bool) (acc : List (String × String) × ℕ)
    (p : Sp2YtPlanEntry) : List (String × String) × ℕ :=
  match p with
  | .add s vid _ _ => if insertOk vid then (aupsert acc.1 s.id vid, acc.2 + 1) else acc
  | _ => acc

/-- `index.js` `runSp2Yt` for one pair.  Additions are applied in reverse
plan order; a failed insert (`insertOk = false`) is caught: no mapping is
recorded and the addition is not counted.  On a dry run nothing is applied
and the cache is not saved. -/
noncomputable def runSp2YtPair (env : Sp2YtEnv) (dryRun : Bool) : Sp2YtOutcome :=
  let cache := env.cache
  let seen := cache.seenTrackIds
  let ytVideoSet := env.ytItems.map (fun v => v.id)
  let spItemsSorted := sortByAddedAtDesc env.spItemsAll
  let spItems := spItemsSorted.take (min RECENT_SPOTIFY_LIMIT spItemsSorted.length)
  let candidates := spItems.filter (isSp2YtCandidate cache seen ytVideoSet)
  let plan := candidates.filterMap
    (planEntrySp2Yt cache ytVideoSet env.ytItems env.searchFn DEFAULT_DURATION_SLACK_SEC env.now)
  if dryRun then ⟨plan, [], 0, none⟩
  else
    let adds := plan.filter Sp2YtPlanEntry.isAdd
    let maps := plan.filter Sp2YtPlanEntry.isMapOnly
    let calls := adds.reverse
    let afterAdds := calls.foldl (sp2YtApplyStep env.insertOk) (cache.map, 0)
    let mapAfter := maps.foldl (fun m p =>
      match p with
      | .mapOnly s vid _ _ _ => aupsert m s.id vid
      | _ => m) afterAdds.1
    let newSeen := dedupFirst (seen ++ env.spItemsAll.map (fun i => i.id))
    ⟨plan, calls, afterAdds.2, some ⟨some env.now, newSeen, mapAfter⟩⟩

noncomputable def runSp2YtLeg (envs : List Sp2YtEnv) (dryRun : Bool) : List Sp2YtOutcome :=
  envs.map (fun e => runSp2YtPair e dryRun)

def sp2YtAddedCount (outs : List Sp2YtOutcome) : ℕ :=
  (outs.map (fun o => o.addedCount)).sum

structure Yt2SpEnv where
  spItemsAll : List SpItem
  ytItemsAll : List YtVideo
  cache : Cache
  searchFn : Str → List SpTrack
  insertOk : String → Bool
  now : ℚ

inductive Yt2SpPlanEntry
  | add (v : YtVideo) (spTrackId : String) (reason : Option String)
      (inspected : Option ℕ) (escalated : Option Bool)
  | mapOnly (v : YtVideo) (spTrackId : String) (reason : Option String)
      (inspected : Option ℕ) (escalated : Option Bool)
  | skip (v : YtVideo) (reason : String) (inspected : ℕ) (escalated : Bool)
deriving DecidableEq

def Yt2SpPlanEntry.isAdd : Yt2SpPlanEntry → Bool
  | .add _ _ _ _ _ => true
  | _ => false

def Yt2SpPlanEntry.isMapOnly : Yt2SpPlanEntry → Bool
  | .mapOnly _ _ _ _ _ => true
  | _ => false

/-- `reverseMap` of `runYt2Sp`: entries with truthy video ids, later entries
overwriting earlier ones (`Map.set`). -/
def reverseLookup (m : List (String × String)) (ytId : String) : Option String :=
  (((m.filter (fun p => !(p.2 = ""))).reverse).find? (fun p => p.2 = ytId)).map
    (fun p => p.1)

/-- One iteration of the YT→SP plan-building loop. -/
def planEntryYt2Sp (cache : Cache) (spTrackSet : List String) (spItemsAll : List SpItem)
    (searchFn : Str → List SpTrack) (slack : ℚ) (v : YtVideo) : Option Yt2SpPlanEntry :=
  match reverseLookup cache.map v.id with
  | some mappedSp =>
    if spTrackSet.contains mappedSp then none
    else some (.add v mappedSp (some "mapped-but-missing") none none)
  | none =>
    match findSoftDupeInSpotify v spItemsAll with
    | some softDup => some (.mapOnly v softDup.id (some "soft-dup-in-playlist") none none)
    | none =>
      let r := findBestSpotifyForYouTubeVideo v searchFn slack
      match r.best with
      | none => some (.skip v (if r.reason = "" then "no_match" else r.reason)
          r.inspected r.escalated)
      | some best =>
        if spTrackSet.contains best.id then
          some (.mapOnly v best.id none (some r.inspected) (some r.escalated))
        else some (.add v best.id none (some r.inspected) (some r.escalated))

structure Yt2SpOutcome where
  effectiveRecent : ℕ
  plan : List Yt2SpPlanEntry
  insertCalls : List Yt2SpPlanEntry
  persisted : Option Cache
deriving DecidableEq

/-- `index.js` `runYt2Sp` for one pair.  `recentLimitOverride` models the
optional finite override (`Number.isFinite` check); the effective window is
`max(0, override)`. -/
def runYt2SpPair (env : Yt2SpEnv) (dryRun : Bool) (recentLimitOverride : Option ℤ) :
    Yt2SpOutcome :=
  let effectiveRecent : ℕ :=
    match recentLimitOverride with
    | some o => (max 0 o).toNat
    | none => RECENT_YOUTUBE_LIMIT
  let cache := env.cache
  let ytItemsSorted := sortYtByAddedAtDesc env.ytItemsAll
  let ytItems := ytItemsSorted.take (min effectiveRecent ytItemsSorted.length)
  let spTrackSet := env.spItemsAll.map (fun i => i.id)
  let plan := ytItems.filterMap
    (planEntryYt2Sp cache spTrackSet env.spItemsAll env.searchFn DEFAULT_DURATION_SLACK_SEC)
  if dryRun then ⟨effectiveRecent, plan, [], none⟩
  else
    let adds := plan.filter Yt2SpPlanEntry.isAdd
    let maps := plan.filter Yt2SpPlanEntry.isMapOnly
    let calls := adds.reverse
    let mapAfterAdds := calls.foldl (fun m p =>
      match p with
      | .add v spTrackId _ _ _ => if env.insertOk spTrackId then aupsert m spTrackId v.id else m
      | _ => m) cache.map
    let mapAfter := maps.foldl (fun m p =>
      match p with
      | .mapOnly v spTrackId _ _ _ => aupsert m spTrackId v.id
      | _ => m) mapAfterAdds
    let addIds := adds.filterMap (fun p =>
      match p with
      | .add _ spTrackId _ _ _ => some spTrackId
      | _ => none)
    let newSeen := dedupFirst (cache.seenTrackIds ++ env.spItemsAll.map (fun i => i.id) ++ addIds)
    ⟨effectiveRecent, plan, calls, some ⟨some env.now, newSeen, mapAfter⟩⟩

def runYt2SpLeg (envs : List Yt2SpEnv) (dryRun : Bool) (override : Option ℤ) :
    List Yt2SpOutcome :=
  envs.map (fun e => runYt2SpPair e dryRun override)

/-- `index.js` `main`, `--mode=both`: run SP→YT, then YT→SP with the recency
window bumped by the number of actual additions of the first leg. -/
noncomputable def runBothMode (senvs : List Sp2YtEnv) (yenvs : List Yt2SpEnv)
    (dryRun : Bool) : List Sp2YtOutcome × List Yt2SpOutcome :=
  let leg1 := runSp2YtLeg senvs dryRun
  let bumpedWindow : ℤ := (RECENT_YOUTUBE_LIMIT : ℤ) + (sp2YtAddedCount leg1 : ℤ)
  let leg2 := runYt2SpLeg yenvs dryRun (some bumpedWindow)
  (leg1, leg2)

/-! ## General lemmas about the selection loops, the sort, and plan building -/

theorem guardedMax_foldl_acc {α β : Type} [LinearOrder β] (ok : α → Bool) (sc : α → β) :
    ∀ (l : List α) (acc : Option (α × β)) (b : α) (s : β),
      (∀ b' s', acc = some (b', s') → ok b' = true) →
      l.foldl (guardedMax ok sc) acc = some (b, s) → ok b = true := by
  intro l
  induction l with
  | nil => intro acc b s hacc h; exact hacc b s h
  | cons x xs ih =>
    intro acc b s hacc h
    simp only [List.foldl_cons] at h
    refine ih _ b s ?_ h
    intro b' s' hstep
    by_cases hx : ok x
    · unfold guardedMax at hstep
      simp only [hx, if_true] at hstep
      cases acc with
      | none =>
        simp only [Option.some.injEq, Prod.mk.injEq] at hstep
        rw [← hstep.1]; exact hx
      | some p =>
        obtain ⟨b0, s0⟩ := p
        by_cases hlt : s0 < sc x
        · simp only [hlt, if_true, Option.some.injEq, Prod.mk.injEq] at hstep
          rw [← hstep.1]; exact hx
        · simp only [hlt, if_false, Option.some.injEq, Prod.mk.injEq] at hstep
          rw [← hstep.1]
          exact hacc b0 s0 rfl
    · unfold guardedMax at hstep
      simp only [hx, if_false] at hstep
      exact hacc b' s' hstep

theorem guardedMax_foldl_id {α β : Type} [LinearOrder β] (ok : α → Bool) (sc : α → β) :
    ∀ (l : List α) (acc : Option (α × β)), (∀ x ∈ l, ok x = false) →
      l.foldl (guardedMax ok sc) acc = acc := by
  intro l
  induction l with
  | nil => intro acc _; rfl
  | cons x xs ih =>
    intro acc h
    simp only [List.foldl_cons]
    have hx : ok x = false := h x (List.mem_cons_self x xs)
    have hstep : guardedMax ok sc acc x = acc := by
      unfold guardedMax; simp [hx]
    rw [hstep]
    exact ih acc (fun y hy => h y (List.mem_cons_of_mem x hy))

theorem guardedMax_keep {α β : Type} [LinearOrder β] (ok : α → Bool) (sc : α → β) :
    ∀ (l : List α) (c : α), (∀ d ∈ l, ok d = true → d = c ∨ sc d < sc c) →
      l.foldl (guardedMax ok sc) (some (c, sc c)) = some (c, sc c) := by
  intro l
  induction l with
  | nil => intro c _; rfl
  | cons d ds ih =>
    intro c h
    simp only [List.foldl_cons]
    have hstep : guardedMax ok sc (some (c, sc c)) d = some (c, sc c) := by
      unfold guardedMax
      by_cases hd : ok d
      · simp only [hd, if_true]
        rcases h d (List.mem_cons_self d ds) hd with h1 | h1
        · subst h1; simp
        · simp [not_lt.mpr (le_of_lt h1)]
      · simp [hd]
    rw [hstep]
    exact ih c (fun e he => h e (List.mem_cons_of_mem d he))

theorem guardedMax_reach {α β : Type} [LinearOrder β] (ok : α → Bool) (sc : α → β) :
    ∀ (l : List α) (b : α) (bs : β) (c : α), c ∈ l → ok c = true →
      (∀ d ∈ l, ok d = true → d = c ∨ sc d < sc c) → bs < sc c →
      l.foldl (guardedMax ok sc) (some (b, bs)) = some (c, sc c) := by
  intro l
  induction l with
  | nil => intro b bs c hc; exact absurd hc (List.not_mem_nil c)
  | cons x xs ih =>
    intro b bs c hc hokc h hbs
    simp only [List.foldl_cons]
    by_cases hxc : x = c
    · subst hxc
      have hstep : guardedMax ok sc (some (b, bs)) x = some (x, sc x) := by
        unfold guardedMax; simp [hokc, hbs]
      rw [hstep]
      exact guardedMax_keep ok sc xs x (fun d hd => h d (List.mem_cons_of_mem x hd))
    · have hcxs : c ∈ xs := by
        rcases List.mem_cons.mp hc with h1 | h1
        · exact absurd h1.symm hxc
        · exact h1
      by_cases hx : ok x
      · rcases h x (List.mem_cons_self x xs) hx with h1 | h1
        · exact absurd h1 hxc
        · by_cases hlt : bs < sc x
          · have hstep : guardedMax ok sc (some (b, bs)) x = some (x, sc x) := by
              unfold guardedMax; simp [hx, hlt]
            rw [hstep]
            exact ih x (sc x) c hcxs hokc (fun d hd => h d (List.mem_cons_of_mem x hd)) h1
          · have hstep : guardedMax ok sc (some (b, bs)) x = some (b, bs) := by
              unfold guardedMax; simp [hx, hlt]
            rw [hstep]
            exact ih b bs c hcxs hokc (fun d hd => h d (List.mem_cons_of_mem x hd)) hbs
      · have hstep : guardedMax ok sc (some (b, bs)) x = some (b, bs) := by
          unfold guardedMax; simp [hx]
        rw [hstep]
        exact ih b bs c hcxs hokc (fun d hd => h d (List.mem_cons_of_mem x hd)) hbs

theorem guardedMax_dominates {α β : Type} [LinearOrder β] (ok : α → Bool) (sc : α → β) :
    ∀ (l : List α) (c : α), c ∈ l → ok c = true →
      (∀ d ∈ l, ok d = true → d = c ∨ sc d < sc c) →
      l.foldl (guardedMax ok sc) none = some (c, sc c) := by
  intro l
  induction l with
  | nil => intro c hc; exact absurd hc (List.not_mem_nil c)
  | cons x xs ih =>
    intro c hc hokc h
    simp only [List.foldl_cons]
    by_cases hx : ok x
    · have hstep : guardedMax ok sc (none : Option (α × β)) x = some (x, sc x) := by
        unfold guardedMax; simp [hx]
      rw [hstep]
      by_cases hxc : x = c
      · subst hxc
        exact guardedMax_keep ok sc xs x (fun d hd => h d (List.mem_cons_of_mem x hd))
      · rcases h x (List.mem_cons_self x xs) hx with h1 | h1
        · exact absurd h1 hxc
        · have hcxs : c ∈ xs := by
            rcases List.mem_cons.mp hc with h2 | h2
            · exact absurd h2.symm hxc
            · exact h2
          exact guardedMax_reach ok sc xs x (sc x) c hcxs hokc
            (fun d hd => h d (List.mem_cons_of_mem x hd)) h1
    · have hstep : guardedMax ok sc (none : Option (α × β)) x = none := by
        unfold guardedMax; simp [hx]
      rw [hstep]
      have hxc : x ≠ c := by
        intro heq; rw [heq] at hx; exact absurd hokc (by simp [hx])
      have hcxs : c ∈ xs := by
        rcases List.mem_cons.mp hc with h2 | h2
        · exact absurd h2.symm hxc
        · exact h2
      exact ih c hcxs hokc (fun d hd => h d (List.mem_cons_of_mem x hd))

theorem pickBest_dominates {α β : Type} [LinearOrder β] (sc : α → β) (l : List α) (c : α)
    (hc : c ∈ l) (h : ∀ d ∈ l, d = c ∨ sc d < sc c) : pickBest sc l = some (c, sc c) :=
  guardedMax_dominates (fun _ => true) sc l c hc rfl (fun d hd _ => h d hd)

theorem guardedMax_acc_isSome {α β : Type} [LinearOrder β] (ok : α → Bool) (sc : α → β) :
    ∀ (l : List α) (acc : Option (α × β)), acc.isSome →
      (l.foldl (guardedMax ok sc) acc).isSome := by
  intro l
  induction l with
  | nil => intro acc h; exact h
  | cons x xs ih =>
    intro acc h
    simp only [List.foldl_cons]
    refine ih _ ?_
    unfold guardedMax
    by_cases hx : ok x
    · cases acc with
      | none => simp [hx]
      | some p => obtain ⟨b, bs⟩ := p; by_cases hlt : bs < sc x <;> simp [hx, hlt]
    · simpa [hx] using h

theorem pickBest_isSome {α β : Type} [LinearOrder β] (sc : α → β) (l : List α)
    (h : l ≠ []) : (pickBest sc l).isSome := by
  cases l with
  | nil => exact absurd rfl h
  | cons x xs =>
    unfold pickBest
    simp only [List.foldl_cons]
    have hstep : guardedMax (fun _ => true) sc (none : Option (α × β)) x = some (x, sc x) := by
      unfold guardedMax; simp
    rw [hstep]
    exact guardedMax_acc_isSome _ sc xs _ rfl

theorem guardedMax_foldl_congr {α β : Type} [LinearOrder β] (ok : α → Bool)
    (sc1 sc2 : α → β) :
    ∀ (l : List α) (acc : Option (α × β)), (∀ x ∈ l, sc1 x = sc2 x) →
      l.foldl (guardedMax ok sc1) acc = l.foldl (guardedMax ok sc2) acc := by
  intro l
  induction l with
  | nil => intro acc _; rfl
  | cons x xs ih =>
    intro acc h
    simp only [List.foldl_cons]
    have hstep : guardedMax ok sc1 acc x = guardedMax ok sc2 acc x := by
      unfold guardedMax; rw [h x (List.mem_cons_self x xs)]
    rw [hstep]
    exact ih _ (fun y hy => h y (List.mem_cons_of_mem x hy))

theorem mem_insertByKeyDesc {α : Type} (key : α → ℚ) (x z : α) :
    ∀ l : List α, z ∈ insertByKeyDesc key x l ↔ z = x ∨ z ∈ l := by
  intro l
  induction l with
  | nil => simp [insertByKeyDesc]
  | cons y ys ih =>
    unfold insertByKeyDesc
    by_cases hlt : key y < key x
    · simp [hlt]
    · simp only [hlt, if_false, List.mem_cons, ih]
      tauto

theorem insertByKeyDesc_pairwise {α : Type} (key : α → ℚ) (x : α) :
    ∀ l : List α, l.Pairwise (fun a b => key b ≤ key a) →
      (insertByKeyDesc key x l).Pairwise (fun a b => key b ≤ key a) := by
  intro l
  induction l with
  | nil => intro _; simp [insertByKeyDesc]
  | cons y ys ih =>
    intro h
    rw [List.pairwise_cons] at h
    unfold insertByKeyDesc
    by_cases hlt : key y < key x
    · simp only [hlt, if_true]
      refine List.Pairwise.cons ?_ (List.Pairwise.cons h.1 h.2)
      intro z hz
      rcases List.mem_cons.mp hz with h1 | h1
      · subst h1; exact le_of_lt hlt
      · exact le_trans (h.1 z h1) (le_of_lt hlt)
    · simp only [hlt, if_false]
      refine List.Pairwise.cons ?_ (ih h.2)
      intro z hz
      rcases (mem_insertByKeyDesc key x z ys).mp hz with h1 | h1
      · subst h1; exact not_lt.mp hlt
      · exact h.1 z h1

theorem sortByKeyDesc_pairwise {α : Type} (key : α → ℚ) (l : List α) :
    (sortByKeyDesc key l).Pairwise (fun a b => key b ≤ key a) := by
  induction l with
  | nil => simp [sortByKeyDesc]
  | cons x xs ih => exact insertByKeyDesc_pairwise key x _ ih

theorem filterMap_map_sublist {α β : Type} (f : α → Option β) (g : β → α)
    (h : ∀ a b, f a = some b → g b = a) :
    ∀ l : List α, ((l.filterMap f).map g).Sublist l := by
  intro l
  induction l with
  | nil => simp
  | cons a as ih =>
    cases hf : f a with
    | none =>
      rw [List.filterMap_cons_none hf]
      exact List.Sublist.cons a ih
    | some b =>
      rw [List.filterMap_cons_some hf]
      simp only [List.map_cons, h a b hf]
      exact List.Sublist.cons₂ a ih

/-! ## Claim theorems -/

theorem relaxedDurationOk_truthy {t c : Option ℚ} (h : relaxedDurationOk t c = true) :
    qTruthy t = true ∧ qTruthy c = true := by
  unfold relaxedDurationOk at h
  split at h
  · exact absurd h (by simp)
  · next hcond =>
    constructor
    · by_contra hq
      exact hcond (by simp [Bool.not_eq_true] at hq; simp [hq])
    · by_contra hq
      exact hcond (by simp [Bool.not_eq_true] at hq; simp [hq])

theorem softDupeYt_ok_of_some {sp : SpItem} {items : List YtVideo} {jmin : ℚ} {v : YtVideo}
    (h : findSoftDupeInPlaylist sp items jmin = some v) :
    softDupeYtOk sp jmin v = true := by
  unfold findSoftDupeInPlaylist at h
  rw [Option.map_eq_some'] at h
  obtain ⟨p, hp, hfst⟩ := h
  subst hfst
  exact guardedMax_foldl_acc _ _ items none p.1 p.2 (by intro b' s' hh; cases hh) hp

theorem softDupeSp_ok_of_some {yt : YtVideo} {items : List SpItem} {it : SpItem}
    (h : findSoftDupeInSpotify yt items = some it) :
    softDupeSpOk yt it = true := by
  unfold findSoftDupeInSpotify at h
  rw [Option.map_eq_some'] at h
  obtain ⟨p, hp, hfst⟩ := h
  subst hfst
  exact guardedMax_foldl_acc _ _ items none p.1 p.2 (by intro b' s' hh; cases hh) hp

/-- C10: whenever either side's duration is absent or zero, the strict
closeness gate returns 0, the relaxed soft-dupe tolerance and the boolean
slack gate return false; consequently such a candidate never passes the hard
filters of either direction and is never reported as a soft duplicate (and an
item with such a duration never yields a soft-duplicate hit at all). -/
theorem c10_duration_gate_falsy :
    (∀ (td cd : Option ℚ) (slack : ℚ), qTruthy td = false ∨ qTruthy cd = false →
      durationCloseness td cd slack = 0 ∧ relaxedDurationOk td cd = false
        ∧ durationClose td cd slack = false)
    ∧ (∀ (sp : SpItem) (cand : YtVideo) (slack : ℚ),
        qTruthy sp.durationMs = false ∨ qTruthy cand.durationMs = false →
        passesHardFilters sp cand slack = false)
    ∧ (∀ (yt : YtVideo) (t : SpTrack) (slack : ℚ),
        qTruthy yt.durationMs = false ∨ qTruthy t.duration_ms = false →
        spHardFilter yt slack t = false)
    ∧ (∀ (sp : SpItem) (items : List YtVideo) (jmin : ℚ),
        qTruthy sp.durationMs = false → findSoftDupeInPlaylist sp items jmin = none)
    ∧ (∀ (sp : SpItem) (items : List YtVideo) (jmin : ℚ) (v : YtVideo),
        qTruthy v.durationMs = false → findSoftDupeInPlaylist sp items jmin ≠ some v)
    ∧ (∀ (yt : YtVideo) (items : List SpItem),
        qTruthy yt.durationMs = false → findSoftDupeInSpotify yt items = none)
    ∧ (∀ (yt : YtVideo) (items : List SpItem) (it : SpItem),
        qTruthy it.durationMs = false → findSoftDupeInSpotify yt items ≠ some it) := by
  have hgate : ∀ (td cd : Option ℚ) (slack : ℚ),
      qTruthy td = false ∨ qTruthy cd = false →
      durationCloseness td cd slack = 0 ∧ relaxedDurationOk td cd = false
        ∧ durationClose td cd slack = false := by
    intro td cd slack h
    rcases h with h | h <;>
      exact ⟨by simp [durationCloseness, h], by simp [relaxedDurationOk, h],
        by simp [durationClose, h]⟩
  refine ⟨hgate, ?_, ?_, ?_, ?_, ?_, ?_⟩
  · intro sp cand slack h
    have hdc := (hgate sp.durationMs cand.durationMs slack h).1
    simp [passesHardFilters, hdc]
  · intro yt t slack h
    have hdc := (hgate yt.durationMs t.duration_ms slack h).2.2
    simp [spHardFilter, hdc]
  · intro sp items jmin h
    unfold findSoftDupeInPlaylist
    rw [guardedMax_foldl_id]
    · rfl
    · intro v _
      have := (hgate sp.durationMs v.durationMs 7 (Or.inl h)).2.1
      simp [softDupeYtOk, this]
  · intro sp items jmin v h hsome
    have hok := softDupeYt_ok_of_some hsome
    unfold softDupeYtOk at hok
    simp only [Bool.and_eq_true] at hok
    have := (relaxedDurationOk_truthy hok.1.1).2
    rw [h] at this
    exact absurd this (by simp)
  · intro yt items h
    unfold findSoftDupeInSpotify
    rw [guardedMax_foldl_id]
    · rfl
    · intro it _
      have := (hgate it.durationMs yt.durationMs 7 (Or.inr h)).2.1
      simp [softDupeSpOk, this]
  · intro yt items it h hsome
    have hok := softDupeSp_ok_of_some hsome
    unfold softDupeSpOk at hok
    simp only [Bool.and_eq_true] at hok
    have := (relaxedDurationOk_truthy hok.1.1).1
    rw [h] at this
    exact absurd this (by simp)

/-! Concrete fixtures used by the witnesses and counterexamples. -/

def wSpOk : SpItem :=
  ⟨"sp1", String.toList "Hello", [String.toList "Adele"], some 200000, some 1000⟩

def wSpNoDur : SpItem :=
  ⟨"sp0", String.toList "Hello", [String.toList "Adele"], none, some 1000⟩

def wYtOk : YtVideo :=
  ⟨"y1", String.toList "Adele - Hello", [], String.toList "Adele - Topic",
    String.toList "10", some 200000, 0, none, none⟩

def wYtNoDur : YtVideo :=
  ⟨"y0", String.toList "Adele - Hello", [], String.toList "Adele - Topic",
    String.toList "10", none, 0, none, none⟩

def wCandOk : YtVideo :=
  ⟨"y2", String.toList "Adele Hello", [], String.toList "Adele",
    String.toList "10", some 200000, 0, none, none⟩

def wCandNoDur : YtVideo :=
  ⟨"y3", String.toList "Adele Hello", [], String.toList "Adele",
    String.toList "10", none, 0, none, none⟩

def wTrackNoDur : SpTrack :=
  ⟨"t1", String.toList "Hello", [String.toList "Adele"], none, 0, false⟩

/-- Witness for `c10_duration_gate_falsy` at concrete inputs. -/
theorem c10_duration_gate_falsy_witness :
    durationCloseness none (some 200000) 7 = 0
    ∧ relaxedDurationOk (some 0) (some 200000) = false
    ∧ durationClose none (some 200000) 7 = false
    ∧ passesHardFilters wSpNoDur wCandOk 7 = false
    ∧ spHardFilter wYtOk 7 wTrackNoDur = false
    ∧ findSoftDupeInPlaylist wSpNoDur [wCandOk] 0.45 = none
    ∧ findSoftDupeInPlaylist wSpOk [wCandNoDur] 0.45 ≠ some wCandNoDur
    ∧ findSoftDupeInSpotify wYtNoDur [wSpOk] = none
    ∧ findSoftDupeInSpotify wYtOk [wSpNoDur] ≠ some wSpNoDur :=
  ⟨(c10_duration_gate_falsy.1 none (some 200000) 7 (Or.inl (by decide))).1,
   (c10_duration_gate_falsy.1 (some 0) (some 200000) 7 (Or.inl (by decide))).2.1,
   (c10_duration_gate_falsy.1 none (some 200000) 7 (Or.inl (by decide))).2.2,
   c10_duration_gate_falsy.2.1 wSpNoDur wCandOk 7 (Or.inl (by decide)),
   c10_duration_gate_falsy.2.2.1 wYtOk wTrackNoDur 7 (Or.inr (by decide)),
   c10_duration_gate_falsy.2.2.2.1 wSpNoDur [wCandOk] 0.45 (by decide),
   c10_duration_gate_falsy.2.2.2.2.1 wSpOk [wCandNoDur] 0.45 wCandNoDur (by decide),
   c10_duration_gate_falsy.2.2.2.2.2.1 wYtNoDur [wSpOk] (by decide),
   c10_duration_gate_falsy.2.2.2.2.2.2 wYtOk [wSpNoDur] wSpNoDur (by decide)⟩

theorem violatesVersionRules_eq (spT ytT ytD : Str) :
    violatesVersionRules spT ytT ytD =
      ((VARIANT_TOKENS.any fun v =>
          strIncludes (normText ytT ++ (' ' :: normText ytD)) v
            && !((VARIANT_TOKENS.filter (fun v => strIncludes (normText spT) v)).contains v))
        || (DISALLOWED_TOKENS.any fun d =>
          strIncludes (normText ytT ++ (' ' :: normText ytD)) d
            && !(strIncludes (normText spT) d))
        || (strIncludes (normText ytT ++ (' ' :: normText ytD)) (String.toList "lyric")
            && !(strIncludes (normText spT) (String.toList "lyric")))) := by rfl

/-- C3: (a) a candidate whose normalized title contains the variant marker
"live" while the normalized source title does not always fails the hard
filters (whose verdict is score-free); (b) the version rule is asymmetric: it
never rejects a candidate all of whose detected markers (variant, disallowed,
and "lyric") also occur in the source title — in particular a source-side
marker missing from the candidate is never a violation by itself. -/
theorem c3_version_rule_asymmetry :
    (∀ (sp : SpItem) (cand : YtVideo) (slack : ℚ),
      strIncludes (normText cand.title) (String.toList "live") = true →
      strIncludes (normText sp.title) (String.toList "live") = false →
      passesHardFilters sp cand slack = false)
    ∧ (∀ spTitle ytTitle ytDesc : Str,
      (∀ v ∈ VARIANT_TOKENS,
        strIncludes (normText ytTitle ++ (' ' :: normText ytDesc)) v = true →
        strIncludes (normText spTitle) v = true) →
      (∀ d ∈ DISALLOWED_TOKENS,
        strIncludes (normText ytTitle ++ (' ' :: normText ytDesc)) d = true →
        strIncludes (normText spTitle) d = true) →
      (strIncludes (normText ytTitle ++ (' ' :: normText ytDesc)) (String.toList "lyric") = true →
        strIncludes (normText spTitle) (String.toList "lyric") = true) →
      violatesVersionRules spTitle ytTitle ytDesc = false) := by
  constructor
  · intro sp cand slack h1 h2
    have hyt : strIncludes (normText cand.title ++ (' ' :: normText cand.description))
        (String.toList "live") = true :=
      strIncludes_append_left _ h1
    have hmem : ¬ (String.toList "live" ∈
        VARIANT_TOKENS.filter (fun v => strIncludes (normText sp.title) v)) := by
      intro hmem'
      have hp := (List.mem_filter.mp hmem').2
      rw [h2] at hp
      exact Bool.noConfusion hp
    have hcont : (VARIANT_TOKENS.filter
        (fun v => strIncludes (normText sp.title) v)).contains (String.toList "live") = false := by
      cases hc : (VARIANT_TOKENS.filter
          (fun v => strIncludes (normText sp.title) v)).contains (String.toList "live") with
      | false => rfl
      | true => exact absurd (by simpa using hc) hmem
    have hany : (VARIANT_TOKENS.any fun v =>
        strIncludes (normText cand.title ++ (' ' :: normText cand.description)) v
          && !((VARIANT_TOKENS.filter
            (fun v => strIncludes (normText sp.title) v)).contains v)) = true := by
      rw [List.any_eq_true]
      refine ⟨String.toList "live", ⟨by decide, ?_⟩⟩
      show (strIncludes (normText cand.title ++ (' ' :: normText cand.description))
          (String.toList "live")
        && !((VARIANT_TOKENS.filter
          (fun v => strIncludes (normText sp.title) v)).contains (String.toList "live"))) = true
      rw [hyt, hcont]
      rfl
    have hviol : violatesVersionRules sp.title cand.title cand.description = true := by
      rw [violatesVersionRules_eq, hany]
      rfl
    simp [passesHardFilters, hviol]
  · intro spTitle ytTitle ytDesc hvar hdis hlyr
    have hA : (VARIANT_TOKENS.any fun v =>
        strIncludes (normText ytTitle ++ (' ' :: normText ytDesc)) v
          && !((VARIANT_TOKENS.filter
            (fun v => strIncludes (normText spTitle) v)).contains v)) = false := by
      rw [List.any_eq_false]
      intro v hv
      cases hin : strIncludes (normText ytTitle ++ (' ' :: normText ytDesc)) v with
      | false => simp
      | true =>
        have hmem : v ∈ VARIANT_TOKENS.filter (fun w => strIncludes (normText spTitle) w) :=
          List.mem_filter.mpr ⟨hv, hvar v hv hin⟩
        have hcont : (VARIANT_TOKENS.filter
            (fun w => strIncludes (normText spTitle) w)).contains v = true := by
          simpa using hmem
        rw [hcont]
        decide
    have hB : (DISALLOWED_TOKENS.any fun d =>
        strIncludes (normText ytTitle ++ (' ' :: normText ytDesc)) d
          && !(strIncludes (normText spTitle) d)) = false := by
      rw [List.any_eq_false]
      intro d hd
      cases hin : strIncludes (normText ytTitle ++ (' ' :: normText ytDesc)) d with
      | false => simp
      | true => simp [hdis d hd hin]
    have hC : (strIncludes (normText ytTitle ++ (' ' :: normText ytDesc)) (String.toList "lyric")
        && !(strIncludes (normText spTitle) (String.toList "lyric"))) = false := by
      cases hin : strIncludes (normText ytTitle ++ (' ' :: normText ytDesc))
          (String.toList "lyric") with
      | false => rfl
      | true =>
        rw [hlyr hin]
        rfl
    rw [violatesVersionRules_eq, hA, hB, hC]
    rfl

def wCandLive : YtVideo :=
  ⟨"y4", String.toList "Adele Hello live", [], String.toList "Adele",
    String.toList "10", some 200000, 0, none, none⟩

/-- Witness for `c3_version_rule_asymmetry` at concrete inputs. -/
theorem c3_version_rule_asymmetry_witness :
    strIncludes (normText wCandLive.title) (String.toList "live") = true
    ∧ passesHardFilters wSpOk wCandLive 7 = false
    ∧ violatesVersionRules (String.toList "Song live") (String.toList "Song live") [] = false :=
  ⟨by decide,
   c3_version_rule_asymmetry.1 wSpOk wCandLive 7 (by decide) (by decide),
   c3_version_rule_asymmetry.2 (String.toList "Song live") (String.toList "Song live") []
     (by decide) (by decide) (by decide)⟩

/-- C9: a dry run never writes the persisted SyncCache — `saveCache` is not
called (`persisted = none`), so `lastSync`, `seenTrackIds` and `map` on disk
are untouched, in both sync directions and in both-mode. -/
theorem c9_dry_run_never_persists :
    (∀ env : Sp2YtEnv, (runSp2YtPair env true).persisted = none)
    ∧ (∀ (env : Yt2SpEnv) (override : Option ℤ),
        (runYt2SpPair env true override).persisted = none)
    ∧ (∀ (senvs : List Sp2YtEnv) (yenvs : List Yt2SpEnv),
        ((runBothMode senvs yenvs true).1.map (fun o => o.persisted)
            = senvs.map (fun _ => (none : Option Cache)))
        ∧ ((runBothMode senvs yenvs true).2.map (fun o => o.persisted)
            = yenvs.map (fun _ => (none : Option Cache)))) := by
  have h1 : ∀ env : Sp2YtEnv, (runSp2YtPair env true).persisted = none := by
    intro env; rfl
  have h2 : ∀ (env : Yt2SpEnv) (override : Option ℤ),
      (runYt2SpPair env true override).persisted = none := by
    intro env override; rfl
  refine ⟨h1, h2, ?_⟩
  intro senvs yenvs
  constructor
  · show (runSp2YtLeg senvs true).map (fun o => o.persisted)
        = senvs.map (fun _ => (none : Option Cache))
    unfold runSp2YtLeg
    rw [List.map_map]
    exact List.map_congr_left (fun e _ => h1 e)
  · show (runYt2SpLeg yenvs true _).map (fun o => o.persisted)
        = yenvs.map (fun _ => (none : Option Cache))
    unfold runYt2SpLeg
    rw [List.map_map]
    exact List.map_congr_left (fun e _ => h2 e _)

theorem sp2YtApplyStep_count (insertOk : String → Bool) :
    ∀ (l : List Sp2YtPlanEntry) (m : List (String × String)) (k : ℕ),
      (l.foldl (sp2YtApplyStep insertOk) (m, k)).2
        = k + (l.filter (fun p =>
            match p with
            | .add _ vid _ _ => insertOk vid
            | _ => false)).length := by
  intro l
  induction l with
  | nil => intro m k; simp
  | cons p ps ih =>
    intro m k
    simp only [List.foldl_cons]
    cases p with
    | add s vid ins esc =>
      by_cases hok : insertOk vid
      · rw [show sp2YtApplyStep insertOk (m, k) (.add s vid ins esc)
            = (aupsert m s.id vid, k + 1) from by simp [sp2YtApplyStep, hok]]
        rw [ih]
        simp [hok]
        omega
      · rw [show sp2YtApplyStep insertOk (m, k) (.add s vid ins esc) = (m, k) from by
            simp [sp2YtApplyStep, hok]]
        rw [ih]
        simp [hok]
    | mapOnly s vid r ins esc =>
      rw [show sp2YtApplyStep insertOk (m, k) (.mapOnly s vid r ins esc) = (m, k) from rfl]
      rw [ih]
      simp
    | skip s r ins esc =>
      rw [show sp2YtApplyStep insertOk (m, k) (.skip s r ins esc) = (m, k) from rfl]
      rw [ih]
      simp

/-- C6: in both-mode, every pair of the YT→SP leg runs with a recency window
equal to the default window size (10) plus the number of successful
insertions of the SP→YT leg; and that count is exactly the number of planned
`add` actions whose insert call succeeded (failed attempts are not counted). -/
theorem c6_both_mode_window_bump :
    (∀ (senvs : List Sp2YtEnv) (yenvs : List Yt2SpEnv) (dryRun : Bool),
      (runBothMode senvs yenvs dryRun).2.map (fun o => o.effectiveRecent)
        = yenvs.map (fun _ =>
            RECENT_YOUTUBE_LIMIT + sp2YtAddedCount (runSp2YtLeg senvs dryRun)))
    ∧ (∀ env : Sp2YtEnv,
      (runSp2YtPair env false).addedCount
        = (((runSp2YtPair env false).plan.filter Sp2YtPlanEntry.isAdd).reverse.filter
            (fun p =>
              match p with
              | .add _ vid _ _ => env.insertOk vid
              | _ => false)).length) := by
  have heff : ∀ (env : Yt2SpEnv) (d : Bool) (o : ℤ),
      (runYt2SpPair env d (some o)).effectiveRecent = (max 0 o).toNat := by
    intro env d o
    cases d <;> rfl
  constructor
  · intro senvs yenvs dryRun
    show (runYt2SpLeg yenvs dryRun
        (some ((RECENT_YOUTUBE_LIMIT : ℤ)
          + (sp2YtAddedCount (runSp2YtLeg senvs dryRun) : ℤ)))).map (fun o => o.effectiveRecent)
      = _
    unfold runYt2SpLeg
    rw [List.map_map]
    apply List.map_congr_left
    intro e _
    simp only [Function.comp]
    rw [heff]
    omega
  · intro env
    show ((((runSp2YtPair env false).plan.filter Sp2YtPlanEntry.isAdd).reverse).foldl
        (sp2YtApplyStep env.insertOk) (env.cache.map, 0)).2 = _
    rw [sp2YtApplyStep_count]
    simp

theorem planEntrySp2Yt_item (cache : Cache) (ytSet : List String) (ytItems : List YtVideo)
    (fn : Str → List YtVideo) (slack now : ℚ) (s : SpItem) (e : Sp2YtPlanEntry)
    (h : planEntrySp2Yt cache ytSet ytItems fn slack now s = some e) :
    e.item = s := by
  simp only [planEntrySp2Yt] at h
  by_cases hm : ((alookup cache.map s.id).isSome
      && ytSet.contains ((alookup cache.map s.id).getD "")) = true
  · rw [if_pos hm] at h
    exact Option.noConfusion h
  · rw [if_neg hm] at h
    cases hsd : findSoftDupeInPlaylist s ytItems 0.45 with
    | some d =>
      rw [hsd] at h
      injection h with h
      subst h
      rfl
    | none =>
      rw [hsd] at h
      cases hb : (findBestYouTubeForSpotifyTrack s fn slack now).best with
      | none =>
        rw [hb] at h
        injection h with h
        subst h
        rfl
      | some b =>
        rw [hb] at h
        dsimp only [] at h
        by_cases hc : ytSet.contains b.id = true
        · rw [if_pos hc] at h
          injection h with h
          subst h
          rfl
        · rw [if_neg hc] at h
          injection h with h
          subst h
          rfl

/-- C5: in a non-dry-run SP→YT pass the destination insert calls are exactly
the planned `add` actions in reverse plan order, and the items they stem from
are in ascending insertion-timestamp order (the recency window is sorted
descending, plan building preserves that order, and the apply loop reverses
it). -/
theorem c5_insert_ordering (env : Sp2YtEnv) :
    (runSp2YtPair env false).insertCalls
      = ((runSp2YtPair env false).plan.filter Sp2YtPlanEntry.isAdd).reverse
    ∧ (runSp2YtPair env false).insertCalls.Pairwise
        (fun p q => addedAtKey p.item.addedAt ≤ addedAtKey q.item.addedAt) := by
  constructor
  · rfl
  · have h0 : (sortByAddedAtDesc env.spItemsAll).Pairwise
        (fun a b => addedAtKey b.addedAt ≤ addedAtKey a.addedAt) :=
      sortByKeyDesc_pairwise _ _
    have h1 : ((sortByAddedAtDesc env.spItemsAll).take
        (min RECENT_SPOTIFY_LIMIT (sortByAddedAtDesc env.spItemsAll).length)).Pairwise
        (fun a b => addedAtKey b.addedAt ≤ addedAtKey a.addedAt) :=
      List.Pairwise.sublist (List.take_sublist _ _) h0
    have h2 : (((sortByAddedAtDesc env.spItemsAll).take
        (min RECENT_SPOTIFY_LIMIT (sortByAddedAtDesc env.spItemsAll).length)).filter
          (isSp2YtCandidate env.cache env.cache.seenTrackIds
            (env.ytItems.map (fun v => v.id)))).Pairwise
        (fun a b => addedAtKey b.addedAt ≤ addedAtKey a.addedAt) :=
      List.Pairwise.sublist (List.filter_sublist _) h1
    have hsub := filterMap_map_sublist
      (planEntrySp2Yt env.cache (env.ytItems.map (fun v => v.id)) env.ytItems env.searchFn
        DEFAULT_DURATION_SLACK_SEC env.now)
      Sp2YtPlanEntry.item
      (fun a b hb => planEntrySp2Yt_item _ _ _ _ _ _ a b hb)
      (((sortByAddedAtDesc env.spItemsAll).take
        (min RECENT_SPOTIFY_LIMIT (sortByAddedAtDesc env.spItemsAll).length)).filter
          (isSp2YtCandidate env.cache env.cache.seenTrackIds
            (env.ytItems.map (fun v => v.id))))
    have h3 := List.Pairwise.sublist hsub h2
    have h4 := List.pairwise_map.mp h3
    have h5 := List.Pairwise.sublist (@List.filter_sublist _ Sp2YtPlanEntry.isAdd _) h4
    exact List.pairwise_reverse.mpr h5

theorem spSelect_ok (yt : YtVideo) (slack : ℚ) (pool : List SpTrack) (inspected : ℕ)
    (esc : Bool) (hpool : pool ≠ []) :
    (spSelect yt slack pool inspected esc).reason = "ok"
    ∧ (spSelect yt slack pool inspected esc).best.isSome = true := by
  unfold spSelect
  dsimp only []
  split
  · next hex =>
    split
    · next chosen bestTie _ => simp
    · next heq =>
      have hne : pool.filter (fun t =>
          isExactTitleMatch (spTitleCore yt) t.name && !(isMusicVideoName t.name)) ≠ [] := by
        simpa using hex
      have hs := pickBest_isSome (spExactTie yt slack) _ hne
      rw [heq] at hs
      exact absurd hs (by simp)
  · split
    · next b s _ => simp
    · next heq =>
      have hs := pickBest_isSome (spScore yt slack) pool hpool
      rw [heq] at hs
      exact absurd hs (by simp)

theorem findBestYt_reason_mem (sp : SpItem) (fn : Str → List YtVideo) (slack now : ℚ) :
    ((findBestYouTubeForSpotifyTrack sp fn slack now).best = none →
      (findBestYouTubeForSpotifyTrack sp fn slack now).reason
        ∈ (["no_search_results", "no_candidate_passed_filters", "no_best"] : List String))
    ∧ (findBestYouTubeForSpotifyTrack sp fn slack now).reason
        ∈ (["ok", "no_search_results", "no_candidate_passed_filters", "no_best"] : List String) := by
  unfold findBestYouTubeForSpotifyTrack
  dsimp only []
  split
  · simp
  · split
    · split
      · simp
      · split
        · next b s _ =>
          constructor
          · intro hb
            simp at hb
          · simp
        · simp
    · split
      · next b s _ =>
        constructor
        · intro hb
          simp at hb
        · simp
      · simp

theorem findBestSp_reason_mem (yt : YtVideo) (fn : Str → List SpTrack) (slack : ℚ) :
    ((findBestSpotifyForYouTubeVideo yt fn slack).best = none →
      (findBestSpotifyForYouTubeVideo yt fn slack).reason
        ∈ (["no_spotify_results", "no_candidate_passed_filters", "no_best"] : List String))
    ∧ (findBestSpotifyForYouTubeVideo yt fn slack).reason
        ∈ (["ok", "no_spotify_results", "no_candidate_passed_filters", "no_best"] : List String) := by
  unfold findBestSpotifyForYouTubeVideo
  dsimp only []
  split
  · simp
  · split
    · split
      · simp
      · next h10 =>
        have h := spSelect_ok yt slack
          (List.filter (spHardFilter yt slack) (List.take 10 (mergeCandidates (buildSpQueries yt) fn)))
          (10 ⊓ (mergeCandidates (buildSpQueries yt) fn).length) true h10
        constructor
        · intro hb
          rw [hb] at h
          exact absurd h.2 (by simp)
        · rw [h.1]
          simp
    · next h5 =>
      have h := spSelect_ok yt slack
        (List.filter (spHardFilter yt slack) (List.take 5 (mergeCandidates (buildSpQueries yt) fn)))
        (5 ⊓ (mergeCandidates (buildSpQueries yt) fn).length) false h5
      constructor
      · intro hb
        rw [hb] at h
        exact absurd h.2 (by simp)
      · rw [h.1]
        simp

/-- C1 (amended): a match attempt that selects no best candidate carries a
reason from { no_search_results (SP→YT) / no_spotify_results (YT→SP),
no_candidate_passed_filters, no_best }, and no reason outside this set plus
"ok" is ever produced; in particular `unintelligible_query` never occurs. -/
theorem c1_failure_reason_taxonomy :
    (∀ (sp : SpItem) (fn : Str → List YtVideo) (slack now : ℚ),
      (findBestYouTubeForSpotifyTrack sp fn slack now).best = none →
      (findBestYouTubeForSpotifyTrack sp fn slack now).reason
        ∈ (["no_search_results", "no_candidate_passed_filters", "no_best"] : List String))
    ∧ (∀ (yt : YtVideo) (fn : Str → List SpTrack) (slack : ℚ),
      (findBestSpotifyForYouTubeVideo yt fn slack).best = none →
      (findBestSpotifyForYouTubeVideo yt fn slack).reason
        ∈ (["no_spotify_results", "no_candidate_passed_filters", "no_best"] : List String))
    ∧ (∀ (sp : SpItem) (fn : Str → List YtVideo) (slack now : ℚ),
      (findBestYouTubeForSpotifyTrack sp fn slack now).reason
        ∈ (["ok", "no_search_results", "no_candidate_passed_filters", "no_best"] : List String))
    ∧ (∀ (yt : YtVideo) (fn : Str → List SpTrack) (slack : ℚ),
      (findBestSpotifyForYouTubeVideo yt fn slack).reason
        ∈ (["ok", "no_spotify_results", "no_candidate_passed_filters", "no_best"] : List String)) :=
  ⟨fun sp fn slack now => (findBestYt_reason_mem sp fn slack now).1,
   fun yt fn slack => (findBestSp_reason_mem yt fn slack).1,
   fun sp fn slack now => (findBestYt_reason_mem sp fn slack now).2,
   fun yt fn slack => (findBestSp_reason_mem yt fn slack).2⟩

/-- C1 counterexample to the claim as stated: a YT→SP attempt whose search
collaborator returns nothing fails with reason `no_spotify_results`, which is
none of the four spec taxonomy values. -/
theorem c1_counterexample_no_spotify_results :
    (findBestSpotifyForYouTubeVideo wYtOk (fun _ => []) 7).best = none
    ∧ (findBestSpotifyForYouTubeVideo wYtOk (fun _ => []) 7).reason = "no_spotify_results"
    ∧ "no_spotify_results" ∉ (["no_search_results", "no_candidate_passed_filters", "no_best",
        "unintelligible_query"] : List String) :=
  ⟨rfl, rfl, by decide⟩

/-- Witness for `c1_failure_reason_taxonomy` at concrete inputs. -/
theorem c1_failure_reason_taxonomy_witness :
    (findBestYouTubeForSpotifyTrack wSpOk (fun _ => []) 7 0).reason
      ∈ (["no_search_results", "no_candidate_passed_filters", "no_best"] : List String)
    ∧ (findBestSpotifyForYouTubeVideo wYtOk (fun _ => []) 7).reason
      ∈ (["no_spotify_results", "no_candidate_passed_filters", "no_best"] : List String) :=
  ⟨c1_failure_reason_taxonomy.1 wSpOk (fun _ => []) 7 0 rfl,
   c1_failure_reason_taxonomy.2.1 wYtOk (fun _ => []) 7 rfl⟩

def wYtJunk : YtVideo :=
  ⟨"yj", String.toList "!!!", [], [], [], some 200000, 0, none, none⟩

def wSpJunk : SpItem :=
  ⟨"sj", String.toList "!!!", [String.toList "??"], some 200000, some 0⟩

/-- C2 (code evaluated at the failing input): the intelligibility guard
`hasUsableTokens` rejects the punctuation-only source text, yet both matchers
still build and issue their search queries and report an ordinary failure
reason — neither ever produces `unintelligible_query`; the guard is defined
and exported but never invoked on the match path. -/
theorem c2_unintelligible_guard_missing :
    hasUsableTokens [wYtJunk.title, wYtJunk.channelTitle] = false
    ∧ buildSpQueries wYtJunk ≠ []
    ∧ (findBestSpotifyForYouTubeVideo wYtJunk (fun _ => []) 7).reason = "no_spotify_results"
    ∧ (findBestSpotifyForYouTubeVideo wYtJunk (fun _ => []) 7).reason ≠ "unintelligible_query"
    ∧ hasUsableTokens [wSpJunk.artists.headD [], wSpJunk.title] = false
    ∧ ytSearchQuery wSpJunk ≠ []
    ∧ (findBestYouTubeForSpotifyTrack wSpJunk (fun _ => []) 7 0).reason = "no_search_results"
    ∧ (findBestYouTubeForSpotifyTrack wSpJunk (fun _ => []) 7 0).reason
        ≠ "unintelligible_query" := by
  refine ⟨by decide, by decide, rfl, by decide, by decide, by decide, rfl, by decide⟩

theorem deriveArtistGuessFallback_not_trusted (t c : Str) :
    (deriveArtistGuessFallback t c).trusted = false := by
  unfold deriveArtistGuessFallback
  dsimp only []
  cases h : (smartSplitArtistTitle t c).artistSide with
  | none => rfl
  | some a =>
    dsimp only []
    by_cases ha : a = []
    · rw [if_pos ha]
    · rw [if_neg ha]

/-- C8: the artist guess of the target→source matcher is trusted only when it
derives from the channel-identity pattern (`Artist - Topic` / word-bounded
`VEVO`, excluding `Various Artists`); and with an untrusted (title-derived or
absent) guess the hard filter never rejects a candidate over artist
mismatch — it collapses to the duration, version, and coverage gates. -/
theorem c8_trusted_artist_guess :
    (∀ t c : Str, (deriveArtistGuess t c).trusted = true →
      ∃ a : Str, extractArtistFromChannel c = some a ∧ a ≠ []
        ∧ isVariousArtists a = false
        ∧ (deriveArtistGuess t c).artistGuess = some a)
    ∧ (∀ (yt : YtVideo) (slack : ℚ) (t : SpTrack),
        (deriveArtistGuess yt.title yt.channelTitle).trusted = false →
        spHardFilter yt slack t
          = (durationClose yt.durationMs t.duration_ms slack
            && !(spVersionMismatch yt t)
            && titleCoverageOk (spTitleCore yt) t.name)) := by
  constructor
  · intro t c htr
    cases hch : extractArtistFromChannel c with
    | none =>
      exfalso
      have hf : (deriveArtistGuess t c).trusted = false := by
        unfold deriveArtistGuess
        rw [hch]
        exact deriveArtistGuessFallback_not_trusted t c
      rw [hf] at htr
      exact Bool.noConfusion htr
    | some a =>
      by_cases hcond : (!(a = []) && !(isVariousArtists a)) = true
      · have hg : deriveArtistGuess t c = ⟨some a, true⟩ := by
          unfold deriveArtistGuess
          rw [hch]
          dsimp only []
          rw [if_pos hcond]
        simp only [Bool.and_eq_true, Bool.not_eq_true', decide_eq_false_iff_not] at hcond
        exact ⟨a, rfl, hcond.1, hcond.2, by rw [hg]⟩
      · exfalso
        have hf : (deriveArtistGuess t c).trusted = false := by
          unfold deriveArtistGuess
          rw [hch]
          dsimp only []
          rw [if_neg hcond]
          exact deriveArtistGuessFallback_not_trusted t c
        rw [hf] at htr
        exact Bool.noConfusion htr
  · intro yt slack t htr
    have hgate : spArtistGate yt t = false := by
      unfold spArtistGate
      dsimp only []
      rw [htr]
      rfl
    unfold spHardFilter
    rw [hgate]
    simp

def wYtUntrusted : YtVideo :=
  ⟨"y5", String.toList "Oasis - Wonderwall", [], String.toList "randomchannel",
    String.toList "10", some 200000, 0, none, none⟩

def wTrackW : SpTrack :=
  ⟨"t2", String.toList "Wonderwall", [String.toList "Oasis"], some 200000, 50, false⟩

/-- Witness for `c8_trusted_artist_guess` at concrete inputs. -/
theorem c8_trusted_artist_guess_witness :
    (deriveArtistGuess (String.toList "x") (String.toList "Adele - Topic")).trusted = true
    ∧ (∃ a : Str, extractArtistFromChannel (String.toList "Adele - Topic") = some a ∧ a ≠ []
        ∧ isVariousArtists a = false
        ∧ (deriveArtistGuess (String.toList "x") (String.toList "Adele - Topic")).artistGuess
            = some a)
    ∧ (deriveArtistGuess wYtUntrusted.title wYtUntrusted.channelTitle).trusted = false
    ∧ spHardFilter wYtUntrusted 7 wTrackW
        = (durationClose wYtUntrusted.durationMs wTrackW.duration_ms 7
          && !(spVersionMismatch wYtUntrusted wTrackW)
          && titleCoverageOk (spTitleCore wYtUntrusted) wTrackW.name) :=
  ⟨by decide,
   c8_trusted_artist_guess.1 (String.toList "x") (String.toList "Adele - Topic") (by decide),
   by decide,
   c8_trusted_artist_guess.2 wYtUntrusted 7 wTrackW (by decide)⟩

theorem spSelect_escalated (yt : YtVideo) (slack : ℚ) (pool : List SpTrack) (inspected : ℕ)
    (esc : Bool) : (spSelect yt slack pool inspected esc).escalated = esc := by
  unfold spSelect
  dsimp only []
  split
  · split <;> rfl
  · split <;> rfl

/-- C4 (amended): in both matchers, a non-empty candidate list whose first
five entries all fail the hard filters escalates the attempt (the filters are
re-applied over the first ten and the result carries `escalated = true`); if
none of the ten pass, the result is `best = none` with reason
`no_candidate_passed_filters`.  A filter-passing candidate that strictly
dominates the escalated pool by score is returned as best — in the SP→YT
matcher unconditionally, in the YT→SP matcher only when no filter-passing
candidate is an exact-title non-music-video match (that override otherwise
preempts the score ranking, see the counterexample). -/
theorem c4_escalation_and_override :
    (∀ (sp : SpItem) (fn : Str → List YtVideo) (slack now : ℚ),
      fn (ytSearchQuery sp) ≠ [] →
      ((fn (ytSearchQuery sp)).take 5).filter (fun v => passesHardFilters sp v slack) = [] →
      (findBestYouTubeForSpotifyTrack sp fn slack now).escalated = true
      ∧ (((fn (ytSearchQuery sp)).take 10).filter (fun v => passesHardFilters sp v slack) = [] →
        (findBestYouTubeForSpotifyTrack sp fn slack now).best = none
        ∧ (findBestYouTubeForSpotifyTrack sp fn slack now).reason
            = "no_candidate_passed_filters"))
    ∧ (∀ (sp : SpItem) (fn : Str → List YtVideo) (slack now : ℚ) (c : YtVideo),
      fn (ytSearchQuery sp) ≠ [] →
      ((fn (ytSearchQuery sp)).take 5).filter (fun v => passesHardFilters sp v slack) = [] →
      c ∈ ((fn (ytSearchQuery sp)).take 10).filter (fun v => passesHardFilters sp v slack) →
      (∀ d ∈ ((fn (ytSearchQuery sp)).take 10).filter (fun v => passesHardFilters sp v slack),
        d = c ∨ scoreCandidate sp d slack now < scoreCandidate sp c slack now) →
      (findBestYouTubeForSpotifyTrack sp fn slack now).best = some c
      ∧ (findBestYouTubeForSpotifyTrack sp fn slack now).escalated = true)
    ∧ (∀ (yt : YtVideo) (fn : Str → List SpTrack) (slack : ℚ),
      mergeCandidates (buildSpQueries yt) fn ≠ [] →
      ((mergeCandidates (buildSpQueries yt) fn).take 5).filter (spHardFilter yt slack) = [] →
      (findBestSpotifyForYouTubeVideo yt fn slack).escalated = true
      ∧ (((mergeCandidates (buildSpQueries yt) fn).take 10).filter (spHardFilter yt slack) = [] →
        (findBestSpotifyForYouTubeVideo yt fn slack).best = none
        ∧ (findBestSpotifyForYouTubeVideo yt fn slack).reason
            = "no_candidate_passed_filters"))
    ∧ (∀ (yt : YtVideo) (fn : Str → List SpTrack) (slack : ℚ) (c : SpTrack),
      mergeCandidates (buildSpQueries yt) fn ≠ [] →
      ((mergeCandidates (buildSpQueries yt) fn).take 5).filter (spHardFilter yt slack) = [] →
      (((mergeCandidates (buildSpQueries yt) fn).take 10).filter (spHardFilter yt slack)).filter
          (fun t => isExactTitleMatch (spTitleCore yt) t.name && !(isMusicVideoName t.name))
        = [] →
      c ∈ ((mergeCandidates (buildSpQueries yt) fn).take 10).filter (spHardFilter yt slack) →
      (∀ d ∈ ((mergeCandidates (buildSpQueries yt) fn).take 10).filter (spHardFilter yt slack),
        d = c ∨ spScore yt slack d < spScore yt slack c) →
      (findBestSpotifyForYouTubeVideo yt fn slack).best = some c
      ∧ (findBestSpotifyForYouTubeVideo yt fn slack).escalated = true) := by
  refine ⟨?_, ?_, ?_, ?_⟩
  · intro sp fn slack now hall h5
    unfold findBestYouTubeForSpotifyTrack
    dsimp only []
    rw [if_neg hall, if_pos h5]
    by_cases h10 : ((fn (ytSearchQuery sp)).take 10).filter
        (fun v => passesHardFilters sp v slack) = []
    · rw [if_pos h10]
      exact ⟨rfl, fun _ => ⟨rfl, rfl⟩⟩
    · rw [if_neg h10]
      refine ⟨?_, fun h => absurd h h10⟩
      cases hpb : pickBest (fun c => scoreCandidate sp c slack now)
          (((fn (ytSearchQuery sp)).take 10).filter (fun v => passesHardFilters sp v slack)) with
      | none => rfl
      | some p => obtain ⟨b, s⟩ := p; rfl
  · intro sp fn slack now c hall h5 hmem hdom
    have hne : ((fn (ytSearchQuery sp)).take 10).filter
        (fun v => passesHardFilters sp v slack) ≠ [] := by
      intro h
      rw [h] at hmem
      exact absurd hmem (List.not_mem_nil c)
    unfold findBestYouTubeForSpotifyTrack
    dsimp only []
    rw [if_neg hall, if_pos h5, if_neg hne]
    rw [pickBest_dominates (fun d => scoreCandidate sp d slack now) _ c hmem hdom]
    exact ⟨rfl, rfl⟩
  · intro yt fn slack hall h5
    unfold findBestSpotifyForYouTubeVideo
    dsimp only []
    rw [if_neg hall, if_pos h5]
    by_cases h10 : ((mergeCandidates (buildSpQueries yt) fn).take 10).filter
        (spHardFilter yt slack) = []
    · rw [if_pos h10]
      exact ⟨rfl, fun _ => ⟨rfl, rfl⟩⟩
    · rw [if_neg h10]
      exact ⟨spSelect_escalated yt slack _ _ true, fun h => absurd h h10⟩
  · intro yt fn slack c hall h5 hex hmem hdom
    have hne : ((mergeCandidates (buildSpQueries yt) fn).take 10).filter
        (spHardFilter yt slack) ≠ [] := by
      intro h
      rw [h] at hmem
      exact absurd hmem (List.not_mem_nil c)
    unfold findBestSpotifyForYouTubeVideo
    dsimp only []
    rw [if_neg hall, if_pos h5, if_neg hne]
    unfold spSelect
    dsimp only []
    split
    · next hcond => exact absurd hex (by simpa using hcond)
    · rw [pickBest_dominates (spScore yt slack) _ c hmem hdom]
      exact ⟨rfl, rfl⟩

def c4fail (i : String) : SpTrack :=
  ⟨i, String.toList "Filler", [], none, 0, false⟩

def c4mv : SpTrack :=
  ⟨"c6", String.toList "Wonderwall Music Video", [], some 200000, 100, false⟩

def c4exact : SpTrack :=
  ⟨"c7", String.toList "Wonderwall", [], some 206900, 0, false⟩

def c4yt : YtVideo :=
  ⟨"y7", String.toList "Wonderwall", [], String.toList "randomchannel",
    String.toList "10", some 200000, 0, none, none⟩

def c4pool : List SpTrack :=
  [c4fail "c0", c4fail "c1", c4fail "c2", c4fail "c3", c4fail "c4", c4fail "c5",
   c4mv, c4exact]

def c4fn : Str → List SpTrack := fun _ => c4pool


unseal Rat.add Rat.sub Rat.mul Rat.inv Rat.ofScientific in
/-- C4 counterexample to the claim as stated: in the YT→SP matcher, with the
first six candidates failing the hard filters, a passing candidate at pool
position 7 that scores strictly highest is NOT returned as best — the
exact-title non-music-video candidate at position 8 overrides it despite its
strictly lower score (the run still escalates). -/
theorem c4_counterexample_exact_override :
    (findBestSpotifyForYouTubeVideo c4yt c4fn 7).escalated = true
    ∧ (findBestSpotifyForYouTubeVideo c4yt c4fn 7).best = some c4exact
    ∧ c4mv ∈ ((mergeCandidates (buildSpQueries c4yt) c4fn).take 10).filter (spHardFilter c4yt 7)
    ∧ spScore c4yt 7 c4exact < spScore c4yt 7 c4mv := by decide

def c4fnA : Str → List YtVideo := fun _ => [wCandNoDur]

def c4fnB : Str → List YtVideo :=
  fun _ => [wCandNoDur, wCandNoDur, wCandNoDur, wCandNoDur, wCandNoDur, wCandOk]

def c4fnC : Str → List SpTrack := fun _ => [c4fail "c0"]

def c4fnD : Str → List SpTrack :=
  fun _ => [c4fail "c0", c4fail "c1", c4fail "c2", c4fail "c3", c4fail "c4", c4mv]

unseal Rat.add Rat.sub Rat.mul Rat.inv Rat.ofScientific in
/-- Witness for `c4_escalation_and_override` at concrete inputs. -/
theorem c4_escalation_and_override_witness :
    ((findBestYouTubeForSpotifyTrack wSpOk c4fnA 7 0).escalated = true
      ∧ (((c4fnA (ytSearchQuery wSpOk)).take 10).filter
            (fun v => passesHardFilters wSpOk v 7) = [] →
        (findBestYouTubeForSpotifyTrack wSpOk c4fnA 7 0).best = none
        ∧ (findBestYouTubeForSpotifyTrack wSpOk c4fnA 7 0).reason
            = "no_candidate_passed_filters"))
    ∧ ((findBestYouTubeForSpotifyTrack wSpOk c4fnB 7 0).best = some wCandOk
      ∧ (findBestYouTubeForSpotifyTrack wSpOk c4fnB 7 0).escalated = true)
    ∧ ((findBestSpotifyForYouTubeVideo c4yt c4fnC 7).escalated = true
      ∧ (((mergeCandidates (buildSpQueries c4yt) c4fnC).take 10).filter
            (spHardFilter c4yt 7) = [] →
        (findBestSpotifyForYouTubeVideo c4yt c4fnC 7).best = none
        ∧ (findBestSpotifyForYouTubeVideo c4yt c4fnC 7).reason
            = "no_candidate_passed_filters"))
    ∧ ((findBestSpotifyForYouTubeVideo c4yt c4fnD 7).best = some c4mv
      ∧ (findBestSpotifyForYouTubeVideo c4yt c4fnD 7).escalated = true) := by
  refine ⟨c4_escalation_and_override.1 wSpOk c4fnA 7 0 (by decide) (by decide),
    c4_escalation_and_override.2.1 wSpOk c4fnB 7 0 wCandOk (by decide) (by decide)
      (by decide) ?_,
    c4_escalation_and_override.2.2.1 c4yt c4fnC 7 (by decide) (by decide),
    c4_escalation_and_override.2.2.2 c4yt c4fnD 7 c4mv (by decide) (by decide) (by decide)
      (by decide) (by decide)⟩
  intro d hd
  have hp : ((c4fnB (ytSearchQuery wSpOk)).take 10).filter
      (fun v => passesHardFilters wSpOk v 7) = [wCandOk] := by decide
  rw [hp] at hd
  exact Or.inl (by simpa using hd)

/-- C7 (amended): both matchers are deterministic functions of the source
item, the candidate pool returned by the search collaborator, and — for the
SP→YT matcher — the ambient clock read by `popularityScore`: two invocations
seeing the same pool agree, and two invocations at different clock readings
agree whenever every candidate's publish timestamp is absent or at least 30
days old under both readings.  (Without that recency condition two
invocations on identical inputs can return different scores, see the
counterexample.) -/
theorem c7_matcher_determinism :
    (∀ (sp : SpItem) (fn1 fn2 : Str → List YtVideo) (slack now : ℚ),
      fn1 (ytSearchQuery sp) = fn2 (ytSearchQuery sp) →
      findBestYouTubeForSpotifyTrack sp fn1 slack now
        = findBestYouTubeForSpotifyTrack sp fn2 slack now)
    ∧ (∀ (yt : YtVideo) (fn1 fn2 : Str → List SpTrack) (slack : ℚ),
      (∀ q, fn1 q = fn2 q) →
      findBestSpotifyForYouTubeVideo yt fn1 slack = findBestSpotifyForYouTubeVideo yt fn2 slack)
    ∧ (∀ (sp : SpItem) (fn : Str → List YtVideo) (slack now1 now2 : ℚ),
      (∀ c ∈ fn (ytSearchQuery sp),
        c.publishedAt.all (fun p => !(decide ((now1 - p) / 86400000 < 30))
          && !(decide ((now2 - p) / 86400000 < 30))) = true) →
      findBestYouTubeForSpotifyTrack sp fn slack now1
        = findBestYouTubeForSpotifyTrack sp fn slack now2) := by
  refine ⟨?_, ?_, ?_⟩
  · intro sp fn1 fn2 slack now h
    unfold findBestYouTubeForSpotifyTrack
    dsimp only []
    rw [h]
  · intro yt fn1 fn2 slack h
    have hfn : fn1 = fn2 := funext h
    rw [hfn]
  · intro sp fn slack now1 now2 hold
    have hsc : ∀ c ∈ fn (ytSearchQuery sp),
        scoreCandidate sp c slack now1 = scoreCandidate sp c slack now2 := by
      intro c hc
      have hp := hold c hc
      have hpop : popularityScore c.viewCount c.publishedAt now1
          = popularityScore c.viewCount c.publishedAt now2 := by
        cases hpub : c.publishedAt with
        | none => rfl
        | some p =>
          rw [hpub] at hp
          simp only [Option.all_some, Bool.and_eq_true, Bool.not_eq_true',
            decide_eq_false_iff_not] at hp
          unfold popularityScore
          dsimp only []
          rw [if_neg hp.1, if_neg hp.2]
      unfold scoreCandidate
      dsimp only []
      rw [hpop]
    unfold findBestYouTubeForSpotifyTrack
    dsimp only []
    by_cases hall : fn (ytSearchQuery sp) = []
    · simp only [if_pos hall]
    · simp only [if_neg hall]
      by_cases h5 : ((fn (ytSearchQuery sp)).take 5).filter
          (fun v => passesHardFilters sp v slack) = []
      · simp only [if_pos h5]
        by_cases h10 : ((fn (ytSearchQuery sp)).take 10).filter
            (fun v => passesHardFilters sp v slack) = []
        · simp only [if_pos h10]
        · simp only [if_neg h10]
          have hpb : pickBest (fun c => scoreCandidate sp c slack now1)
                (((fn (ytSearchQuery sp)).take 10).filter
                  (fun v => passesHardFilters sp v slack))
              = pickBest (fun c => scoreCandidate sp c slack now2)
                (((fn (ytSearchQuery sp)).take 10).filter
                  (fun v => passesHardFilters sp v slack)) := by
            unfold pickBest
            refine guardedMax_foldl_congr _ _ _ _ _ ?_
            intro x hx
            exact hsc x (List.take_subset _ _ (List.mem_of_mem_filter hx))
          rw [hpb]
      · simp only [if_neg h5]
        have hpb : pickBest (fun c => scoreCandidate sp c slack now1)
              (((fn (ytSearchQuery sp)).take 5).filter
                (fun v => passesHardFilters sp v slack))
            = pickBest (fun c => scoreCandidate sp c slack now2)
              (((fn (ytSearchQuery sp)).take 5).filter
                (fun v => passesHardFilters sp v slack)) := by
          unfold pickBest
          refine guardedMax_foldl_congr _ _ _ _ _ ?_
          intro x hx
          exact hsc x (List.take_subset _ _ (List.mem_of_mem_filter hx))
        rw [hpb]

def wCandPop : YtVideo :=
  ⟨"y6", String.toList "Adele Hello", [], String.toList "Adele",
    String.toList "10", some 200000, 9, some 0, none⟩

def c7fn : Str → List YtVideo := fun _ => [wCandPop]

unseal Rat.add Rat.sub Rat.mul Rat.inv Rat.ofScientific in
/-- C7 counterexample to the claim as stated: two invocations of the SP→YT
matcher on an identical item and identical candidate pool, one clock reading
1 day and the other 40 days after the candidate's publish timestamp, return
different results — the recency factor of `popularityScore` halves the
day-1 score. -/
theorem c7_counterexample_clock_dependence :
    findBestYouTubeForSpotifyTrack wSpOk c7fn 7 86400000
      ≠ findBestYouTubeForSpotifyTrack wSpOk c7fn 7 3456000000 := by
  have hfilter : ((c7fn (ytSearchQuery wSpOk)).take 5).filter
      (fun v => passesHardFilters wSpOk v 7) = [wCandPop] := by decide
  have hs1 : (findBestYouTubeForSpotifyTrack wSpOk c7fn 7 86400000).score
      = some (scoreCandidate wSpOk wCandPop 7 86400000) := by
    unfold findBestYouTubeForSpotifyTrack
    dsimp only []
    rw [if_neg (by decide), if_neg (by decide), hfilter]
    rfl
  have hs2 : (findBestYouTubeForSpotifyTrack wSpOk c7fn 7 3456000000).score
      = some (scoreCandidate wSpOk wCandPop 7 3456000000) := by
    unfold findBestYouTubeForSpotifyTrack
    dsimp only []
    rw [if_neg (by decide), if_neg (by decide), hfilter]
    rfl
  have hlt : popularityScore wCandPop.viewCount wCandPop.publishedAt 86400000
      < popularityScore wCandPop.viewCount wCandPop.publishedAt 3456000000 := by
    show popularityScore 9 (some 0) 86400000 < popularityScore 9 (some 0) 3456000000
    unfold popularityScore
    dsimp only []
    rw [if_pos (by norm_num), if_neg (by norm_num)]
    have hL : Real.logb 10 (((9 : ℚ) : ℝ) + 1) = 1 := by
      have h9 : ((9 : ℚ) : ℝ) + 1 = 10 := by norm_num
      rw [h9]
      exact Real.logb_self_eq_one (by norm_num)
    rw [hL]
    norm_num
  intro h
  have hs := congrArg YtMatchResult.score h
  rw [hs1, hs2] at hs
  have hval := Option.some.inj hs
  unfold scoreCandidate at hval
  dsimp only [] at hval
  linarith [hlt]

/-- Witness for `c7_matcher_determinism` at concrete inputs. -/
theorem c7_matcher_determinism_witness :
    findBestYouTubeForSpotifyTrack wSpOk c7fn 7 0 = findBestYouTubeForSpotifyTrack wSpOk c7fn 7 0
    ∧ findBestSpotifyForYouTubeVideo c4yt c4fn 7 = findBestSpotifyForYouTubeVideo c4yt c4fn 7
    ∧ findBestYouTubeForSpotifyTrack wSpOk c4fnB 7 1000
        = findBestYouTubeForSpotifyTrack wSpOk c4fnB 7 2000 :=
  ⟨c7_matcher_determinism.1 wSpOk c7fn c7fn 7 0 rfl,
   c7_matcher_determinism.2.1 c4yt c4fn c4fn 7 (fun _ => rfl),
   c7_matcher_determinism.2.2 wSpOk c4fnB 7 1000 2000 (by decide)⟩
